import Mathlib

/-!
# The metric-line codec of sentinel-golang

A shallow embedding of `core/base/metric_item.go` (`MetricItem`, `ToFatString`,
`ToThinString`, `MetricItemFromFatString`) and of `util/string.go` (`IsBlank`),
together with the parts of the Go standard library these functions call
(`strings.Split`, `strings.ReplaceAll`, `strings.TrimSpace`, `strconv.ParseUint`,
`strconv.ParseInt`, the `%d` verb of `fmt`, `strings.Builder`).

Conventions.
* A Go string is a list of characters. Every byte the code looks at
  (`|`, `_`, `+`, `-`, `0`..`9`) is ASCII, so on well-formed UTF-8 text the byte-wise
  processing of the Go code and the character-wise processing here agree.
* Machine integers are `Nat` / `Int`; wrap-around is written with an explicit `%`.
  `MetricItem.InRange` says that the fields of a record fit their Go types.
* A Go result `(value, error)` is a pair whose second component is `none` for `nil`;
  a Go result `(*MetricItem, error)` is a pair of two options.
* `util.FormatTimeMillis` is not part of the sources at hand; the encoders take it as
  a parameter.
-/

namespace Sentinel

/-- A Go string, as the list of its characters. -/
abbrev GoString := List Char

/-- The two sentinel errors of `strconv`: `ErrSyntax` and `ErrRange`. -/
inductive StrconvErr where
  | ErrSyntax
  | ErrRange
  deriving DecidableEq, Repr

/-- The error values the codec can return: an `errors.New(msg)` value, or a
`*strconv.NumError` with its `Func`, `Num` and `Err` fields. -/
inductive GoError where
  | errorString (msg : String)
  | NumError (Func : String) (Num : GoString) (Err : StrconvErr)
  deriving DecidableEq, Repr

/-! ## `strings` -/

namespace strings

/-- Helper of `Split`: puts a character in front of the first field. -/
def consHead (c : Char) : List GoString → List GoString
  | [] => [[c]]
  | f :: fs => (c :: f) :: fs

/-- `strings.Split(s, sep)` for a one-character separator: the substrings between the
separators; a string without separator (also the empty one) gives one field. -/
def Split (s : GoString) (sep : Char) : List GoString :=
  match s with
  | [] => [[]]
  | c :: cs => if c = sep then [] :: Split cs sep else consHead c (Split cs sep)

/-- `strings.ReplaceAll(s, old, new)` for one-character `old` and `new`. -/
def ReplaceAll (s : GoString) (old new : Char) : GoString :=
  s.map (fun c => if c = old then new else c)

/-- `unicode.IsSpace`: the white space characters of Unicode. -/
def isSpace (c : Char) : Bool :=
  let n := c.toNat
  (9 ≤ n && n ≤ 13) || n = 32 || n = 0x85 || n = 0xA0 || n = 0x1680 ||
  (0x2000 ≤ n && n ≤ 0x200a) || n = 0x2028 || n = 0x2029 || n = 0x202f ||
  n = 0x205f || n = 0x3000

/-- `strings.TrimSpace(s)`: `s` without its leading and trailing white space. -/
def TrimSpace (s : GoString) : GoString :=
  ((s.dropWhile isSpace).reverse.dropWhile isSpace).reverse

/-- A `strings.Builder`: the text accumulated so far. -/
structure Builder where
  buf : GoString := []
  deriving DecidableEq, Repr

/-- `(*Builder).Write(p)`: appends `p`; returns the length of `p` and a nil error. -/
def Builder.Write (b : Builder) (p : GoString) : Builder × Nat × Option GoError :=
  ({ buf := b.buf ++ p }, p.length, none)

/-- `(*Builder).String()`. -/
def Builder.String (b : Builder) : GoString := b.buf

end strings

/-! ## `strconv` -/

namespace strconv

/-- `syntaxError(fn, str)` of `strconv`. -/
def syntaxError (fn : String) (str : GoString) : GoError :=
  GoError.NumError fn str StrconvErr.ErrSyntax

/-- `rangeError(fn, str)` of `strconv`. -/
def rangeError (fn : String) (str : GoString) : GoError :=
  GoError.NumError fn str StrconvErr.ErrRange

/-- `lower(c)` of `strconv`: `c | ('x' - 'X')`. -/
def lower (c : Nat) : Nat := c ||| 32

/-- The digit value `ParseUint` gives a byte: `c - '0'` for a decimal digit,
`lower(c) - 'a' + 10` for a letter, nothing for any other byte. -/
def digitVal (c : Char) : Option Nat :=
  if '0'.toNat ≤ c.toNat ∧ c.toNat ≤ '9'.toNat then some (c.toNat - '0'.toNat)
  else if 'a'.toNat ≤ lower c.toNat ∧ lower c.toNat ≤ 'z'.toNat then
    some (lower c.toNat - 'a'.toNat + 10)
  else none

/-- The constant `maxUint64`. -/
def maxUint64 : Nat := 2 ^ 64 - 1

/-- The `cutoff` of `ParseUint` for base 10: `maxUint64/10 + 1`. -/
def cutoff10 : Nat := maxUint64 / 10 + 1

/-- The loop of `strconv.ParseUint(s, 10, bitSize)` over the bytes still to read,
with the accumulator `n` (a `uint64`, hence the `% 2^64`). -/
def parseUintLoop (s0 : GoString) (maxVal : Nat) : Nat → GoString → Nat × Option GoError
  | n, [] => (n, none)
  | n, c :: cs =>
    match digitVal c with
    | none => (0, some (syntaxError "ParseUint" s0))
    | some d =>
      if d ≥ 10 then (0, some (syntaxError "ParseUint" s0))
      else if n ≥ cutoff10 then (maxVal, some (rangeError "ParseUint" s0))
      else
        let n10 := n * 10 % 2 ^ 64
        let n1 := (n10 + d) % 2 ^ 64
        if n1 < n10 ∨ n1 > maxVal then (maxVal, some (rangeError "ParseUint" s0))
        else parseUintLoop s0 maxVal n1 cs

/-- `strconv.ParseUint(s, 10, bitSize)` for `bitSize` 32 or 64 (the base is 10 at every
call of the codec, so underscores are never accepted). -/
def ParseUint (s : GoString) (bitSize : Nat) : Nat × Option GoError :=
  if s = [] then (0, some (syntaxError "ParseUint" s))
  else parseUintLoop s (2 ^ bitSize - 1) 0 s

/-- The conversion `int64(x)`. -/
def toInt64 (x : Int) : Int := (x + 2 ^ 63) % 2 ^ 64 - 2 ^ 63

/-- `strconv.ParseInt(s, 10, bitSize)` for `bitSize` 32 or 64. -/
def ParseInt (s : GoString) (bitSize : Nat) : Int × Option GoError :=
  if s = [] then (0, some (syntaxError "ParseInt" s))
  else
    let s0 := s
    let neg : Bool := s.head? = some '-'
    let s1 := if s.head? = some '+' then s.tail else if s.head? = some '-' then s.tail else s
    match ParseUint s1 bitSize with
    | (_, some (GoError.NumError _ _ StrconvErr.ErrSyntax)) => (0, some (syntaxError "ParseInt" s0))
    | (un, _) =>
      let cutoff : Nat := 2 ^ (bitSize - 1)
      if !neg ∧ un ≥ cutoff then ((cutoff : Int) - 1, some (rangeError "ParseInt" s0))
      else if neg ∧ un > cutoff then (-(cutoff : Int), some (rangeError "ParseInt" s0))
      else
        let n := toInt64 un
        (if neg then toInt64 (-n) else n, none)

end strconv

/-! ## `fmt`: the verb `%d` -/

namespace fmt

/-- The byte `'0' + d`. -/
def digitByte (d : Nat) : Char := Char.ofNat ('0'.toNat + d)

/-- The digit loop of `fmtInteger` in base 10: the digits of `u` are put in front of
`buf`, last digit first. The first argument bounds the number of steps. -/
def fmtDigits : Nat → Nat → GoString → GoString
  | 0, _, buf => buf
  | fuel + 1, u, buf =>
    if u ≥ 10 then fmtDigits fuel (u / 10) (digitByte (u % 10) :: buf)
    else digitByte u :: buf

/-- The verb `%d` on an unsigned integer: its decimal text. -/
def fmtUint (u : Nat) : GoString := fmtDigits (u + 1) u []

/-- The verb `%d` on a signed integer: a `-` and the decimal text of the magnitude
when negative. -/
def fmtInt (i : Int) : GoString :=
  if i < 0 then '-' :: fmtUint (-i).toNat else fmtUint i.toNat

end fmt

/-! ## `util.IsBlank` -/

namespace util

/-- `IsBlank(s)`: `strings.TrimSpace(s) == ""`. -/
def IsBlank (s : GoString) : Bool := strings.TrimSpace s == []

end util

/-! ## `core/base/metric_item.go` -/

/-- The constant `metricPartSeparator`, the one-character string `"|"`. -/
def metricPartSeparator : Char := '|'

/-- The struct `MetricItem`; the zero value of Go is the default. -/
structure MetricItem where
  Resource : GoString := []
  Classification : Int := 0
  Timestamp : Nat := 0
  PassQps : Nat := 0
  BlockQps : Nat := 0
  CompleteQps : Nat := 0
  ErrorQps : Nat := 0
  AvgRt : Nat := 0
  OccupiedPassQps : Nat := 0
  Concurrency : Nat := 0
  deriving DecidableEq, Repr

/-- The fields of a record fit their Go types: `int32` for `Classification`, `uint32`
for `Concurrency`, `uint64` for the others. -/
def MetricItem.InRange (m : MetricItem) : Prop :=
  -(2 : Int) ^ 31 ≤ m.Classification ∧ m.Classification < 2 ^ 31 ∧
  m.Timestamp < 2 ^ 64 ∧ m.PassQps < 2 ^ 64 ∧ m.BlockQps < 2 ^ 64 ∧
  m.CompleteQps < 2 ^ 64 ∧ m.ErrorQps < 2 ^ 64 ∧ m.AvgRt < 2 ^ 64 ∧
  m.OccupiedPassQps < 2 ^ 64 ∧ m.Concurrency < 2 ^ 32

instance (m : MetricItem) : Decidable m.InRange := by
  unfold MetricItem.InRange; infer_instance

/-- The text `fmt.Fprintf` produces for the format of `ToFatString`,
`"%d|%s|%s|%d|%d|%d|%d|%d|%d|%d|%d"`. -/
def fatFormat (ts : Nat) (timeStr finalName : GoString) (p b c e rt oc conc : Nat)
    (cl : Int) : GoString :=
  fmt.fmtUint ts ++ '|' :: timeStr ++ '|' :: finalName ++ '|' :: fmt.fmtUint p ++
  '|' :: fmt.fmtUint b ++ '|' :: fmt.fmtUint c ++ '|' :: fmt.fmtUint e ++
  '|' :: fmt.fmtUint rt ++ '|' :: fmt.fmtUint oc ++ '|' :: fmt.fmtUint conc ++
  '|' :: fmt.fmtInt cl

/-- The text `fmt.Fprintf` produces for the format of `ToThinString`,
`"%d|%s|%d|%d|%d|%d|%d|%d|%d|%d"`. -/
def thinFormat (ts : Nat) (finalName : GoString) (p b c e rt oc conc : Nat)
    (cl : Int) : GoString :=
  fmt.fmtUint ts ++ '|' :: finalName ++ '|' :: fmt.fmtUint p ++
  '|' :: fmt.fmtUint b ++ '|' :: fmt.fmtUint c ++ '|' :: fmt.fmtUint e ++
  '|' :: fmt.fmtUint rt ++ '|' :: fmt.fmtUint oc ++ '|' :: fmt.fmtUint conc ++
  '|' :: fmt.fmtInt cl

/-- The method `(*MetricItem).ToFatString`, given `util.FormatTimeMillis`. -/
def MetricItem.ToFatString (FormatTimeMillis : Nat → GoString) (m : MetricItem) :
    GoString × Option GoError :=
  let b : strings.Builder := {}
  let timeStr := FormatTimeMillis m.Timestamp
  -- All "|" in the resource name will be replaced with "_"
  let finalName := strings.ReplaceAll m.Resource '|' '_'
  match b.Write (fatFormat m.Timestamp timeStr finalName m.PassQps m.BlockQps
      m.CompleteQps m.ErrorQps m.AvgRt m.OccupiedPassQps m.Concurrency m.Classification) with
  | (_, _, some err) => ([], some err)
  | (b, _, none) => (b.String, none)

/-- The method `(*MetricItem).ToThinString`. -/
def MetricItem.ToThinString (m : MetricItem) : GoString × Option GoError :=
  let b : strings.Builder := {}
  let finalName := strings.ReplaceAll m.Resource '|' '_'
  match b.Write (thinFormat m.Timestamp finalName m.PassQps m.BlockQps
      m.CompleteQps m.ErrorQps m.AvgRt m.OccupiedPassQps m.Concurrency m.Classification) with
  | (_, _, some err) => ([], some err)
  | (b, _, none) => (b.String, none)

/-- The index expression `arr[i]`. Every index expression of `MetricItemFromFatString`
is guarded by a length check, so the default is never returned there. -/
def idx (arr : List GoString) (i : Nat) : GoString := arr.getD i []

/-- The conversion `uint32(x)` of a `uint64`. -/
def toUint32 (x : Nat) : Nat := x % 2 ^ 32

/-- The conversion `int32(x)` of an `int64`. -/
def toInt32 (x : Int) : Int := (x + 2 ^ 31) % 2 ^ 32 - 2 ^ 31

/-- The end of `MetricItemFromFatString`, from `if len(arr) >= 11` on. -/
def fromFatStringClassification (arr : List GoString) (item : MetricItem) :
    Option MetricItem × Option GoError :=
  if arr.length ≥ 11 then
    match strconv.ParseInt (idx arr 10) 32 with
    | (_, some err) => (none, some err)
    | (cl, none) => (some { item with Classification := toInt32 cl }, none)
  else (some item, none)

/-- The end of `MetricItemFromFatString`, from `if len(arr) >= 10` on. -/
def fromFatStringConcurrency (arr : List GoString) (item : MetricItem) :
    Option MetricItem × Option GoError :=
  if arr.length ≥ 10 then
    match strconv.ParseUint (idx arr 9) 32 with
    | (_, some err) => (none, some err)
    | (concurrency, none) =>
      fromFatStringClassification arr { item with Concurrency := toUint32 concurrency }
  else fromFatStringClassification arr item

/-- The end of `MetricItemFromFatString`, from `if len(arr) >= 9` on. -/
def fromFatStringOccupied (arr : List GoString) (item : MetricItem) :
    Option MetricItem × Option GoError :=
  if arr.length ≥ 9 then
    match strconv.ParseUint (idx arr 8) 64 with
    | (_, some err) => (none, some err)
    | (oc, none) => fromFatStringConcurrency arr { item with OccupiedPassQps := oc }
  else fromFatStringConcurrency arr item

/-- The function `MetricItemFromFatString`. -/
def MetricItemFromFatString (line : GoString) : Option MetricItem × Option GoError :=
  if line.length = 0 then
    (none, some (GoError.errorString "invalid metric line: empty string"))
  else
    let item : MetricItem := {}
    let arr := strings.Split line metricPartSeparator
    if arr.length < 8 then
      (none, some (GoError.errorString "invalid metric line: invalid format"))
    else
      match strconv.ParseUint (idx arr 0) 64 with
      | (_, some err) => (none, some err)
      | (ts, none) =>
      let item := { item with Timestamp := ts }
      let item := { item with Resource := idx arr 2 }
      match strconv.ParseUint (idx arr 3) 64 with
      | (_, some err) => (none, some err)
      | (p, none) =>
      let item := { item with PassQps := p }
      match strconv.ParseUint (idx arr 4) 64 with
      | (_, some err) => (none, some err)
      | (b, none) =>
      let item := { item with BlockQps := b }
      match strconv.ParseUint (idx arr 5) 64 with
      | (_, some err) => (none, some err)
      | (c, none) =>
      let item := { item with CompleteQps := c }
      match strconv.ParseUint (idx arr 6) 64 with
      | (_, some err) => (none, some err)
      | (e, none) =>
      let item := { item with ErrorQps := e }
      match strconv.ParseUint (idx arr 7) 64 with
      | (_, some err) => (none, some err)
      | (rt, none) =>
      let item := { item with AvgRt := rt }
      fromFatStringOccupied arr item

/-! ## Decimal texts, as the specification speaks of them -/

/-- A decimal digit `0`..`9`. -/
def IsDigit (c : Char) : Prop := 48 ≤ c.toNat ∧ c.toNat ≤ 57

instance (c : Char) : Decidable (IsDigit c) := by
  unfold IsDigit; infer_instance

/-- The number a string of decimal digits denotes, continuing from `n`. -/
def decimalFrom (n : Nat) (s : GoString) : Nat :=
  s.foldl (fun acc c => acc * 10 + (c.toNat - 48)) n

/-- The number a string of decimal digits denotes. -/
def decimalValue (s : GoString) : Nat := decimalFrom 0 s

/-- A valid unsigned decimal of `bits` bits: a non-empty string of decimal digits whose
value is below `2 ^ bits`. -/
def IsUintDecimal (bits : Nat) (s : GoString) : Prop :=
  s ≠ [] ∧ (∀ c ∈ s, IsDigit c) ∧ decimalValue s < 2 ^ bits

instance (bits : Nat) (s : GoString) : Decidable (IsUintDecimal bits s) := by
  unfold IsUintDecimal; infer_instance

/-- The digits of a signed decimal: the text without its sign `+` or `-`. -/
def signedDigits (s : GoString) : GoString :=
  match s with
  | '+' :: t => t
  | '-' :: t => t
  | t => t

/-- A signed decimal text is negative: it starts with `-`. -/
def signedNeg (s : GoString) : Bool :=
  match s with
  | '-' :: _ => true
  | _ => false

/-- The number a signed decimal text denotes. -/
def signedValue (s : GoString) : Int :=
  if signedNeg s then -(decimalValue (signedDigits s) : Int) else decimalValue (signedDigits s)

/-- A valid signed decimal of `bits` bits: an optional sign, then a non-empty string of
decimal digits, the value being in `[-2^(bits-1), 2^(bits-1) - 1]`. -/
def IsIntDecimal (bits : Nat) (s : GoString) : Prop :=
  signedDigits s ≠ [] ∧ (∀ c ∈ signedDigits s, IsDigit c) ∧
  -(2 : Int) ^ (bits - 1) ≤ signedValue s ∧ signedValue s < 2 ^ (bits - 1)

instance (bits : Nat) (s : GoString) : Decidable (IsIntDecimal bits s) := by
  unfold IsIntDecimal; infer_instance

/-! ## The fields of a split line, as the specification speaks of them -/

/-- The fields of a split line are valid: fields 0, 3, 4, 5, 6, 7 are unsigned 64-bit
decimals, and so is field 8 when present; field 9, when present, is an unsigned 32-bit
decimal and field 10, when present, a signed 32-bit decimal. -/
def ValidFields (arr : List GoString) : Prop :=
  IsUintDecimal 64 (idx arr 0) ∧ IsUintDecimal 64 (idx arr 3) ∧
  IsUintDecimal 64 (idx arr 4) ∧ IsUintDecimal 64 (idx arr 5) ∧
  IsUintDecimal 64 (idx arr 6) ∧ IsUintDecimal 64 (idx arr 7) ∧
  (9 ≤ arr.length → IsUintDecimal 64 (idx arr 8)) ∧
  (10 ≤ arr.length → IsUintDecimal 32 (idx arr 9)) ∧
  (11 ≤ arr.length → IsIntDecimal 32 (idx arr 10))

instance (arr : List GoString) : Decidable (ValidFields arr) := by
  unfold ValidFields; infer_instance

/-- The record the fields of a split line denote: the values of fields 0, 2, 3..7, and
of fields 8, 9, 10 when present, zero otherwise. -/
def fieldsRecord (arr : List GoString) : MetricItem :=
  { Resource := idx arr 2
    Classification := if 11 ≤ arr.length then signedValue (idx arr 10) else 0
    Timestamp := decimalValue (idx arr 0)
    PassQps := decimalValue (idx arr 3)
    BlockQps := decimalValue (idx arr 4)
    CompleteQps := decimalValue (idx arr 5)
    ErrorQps := decimalValue (idx arr 6)
    AvgRt := decimalValue (idx arr 7)
    OccupiedPassQps := if 9 ≤ arr.length then decimalValue (idx arr 8) else 0
    Concurrency := if 10 ≤ arr.length then decimalValue (idx arr 9) else 0 }

/-! ## The fields of an encoded line -/

/-- The fields of the verbose line of a record, in the order of the format string of
`ToFatString`. -/
def fatFields (FormatTimeMillis : Nat → GoString) (m : MetricItem) : List GoString :=
  [fmt.fmtUint m.Timestamp, FormatTimeMillis m.Timestamp,
   strings.ReplaceAll m.Resource '|' '_', fmt.fmtUint m.PassQps, fmt.fmtUint m.BlockQps,
   fmt.fmtUint m.CompleteQps, fmt.fmtUint m.ErrorQps, fmt.fmtUint m.AvgRt,
   fmt.fmtUint m.OccupiedPassQps, fmt.fmtUint m.Concurrency, fmt.fmtInt m.Classification]

/-- The fields of the compact line of a record, in the order of the format string of
`ToThinString`. -/
def thinFields (m : MetricItem) : List GoString :=
  [fmt.fmtUint m.Timestamp,
   strings.ReplaceAll m.Resource '|' '_', fmt.fmtUint m.PassQps, fmt.fmtUint m.BlockQps,
   fmt.fmtUint m.CompleteQps, fmt.fmtUint m.ErrorQps, fmt.fmtUint m.AvgRt,
   fmt.fmtUint m.OccupiedPassQps, fmt.fmtUint m.Concurrency, fmt.fmtInt m.Classification]

/-! ## Examples -/

/-- A time formatter for the examples: the text of 2020-09-13 12:26:40, the time
of the timestamp 1600000000000 in UTC, whatever the timestamp. -/
def exampleFormatTime (_ : Nat) : GoString := "2020-09-13 12:26:40".toList

/-- The record of the example of the specification. -/
def exampleItem : MetricItem :=
  { Resource := "svc-a".toList, Classification := 0, Timestamp := 1600000000000,
    PassQps := 10, BlockQps := 2, CompleteQps := 8, ErrorQps := 0, AvgRt := 15,
    OccupiedPassQps := 1, Concurrency := 3 }

/-- A record whose resource name holds the separator, with the extreme values of the
integer types and a negative classification. -/
def pipeItem : MetricItem :=
  { Resource := "a|b".toList, Classification := -2147483648,
    Timestamp := 18446744073709551615, PassQps := 0, BlockQps := 1, CompleteQps := 2,
    ErrorQps := 3, AvgRt := 4, OccupiedPassQps := 18446744073709551615,
    Concurrency := 4294967295 }

/-! ## The failure condition of the decoder, as the specification speaks of it -/

/-- The condition under which the specification says the decoding of a line fails:
the line is empty, or it splits on `|` into fewer than 8 fields, or one of the fields
0, 3, 4, 5, 6, 7 is not a valid unsigned 64-bit decimal, or a present field 8 is not a
valid unsigned 64-bit decimal, or a present field 9 is not a valid unsigned 32-bit
decimal, or a present field 10 is not a valid signed 32-bit decimal. -/
def DecodeFails (line : GoString) : Prop :=
  line = [] ∨ (strings.Split line '|').length < 8 ∨
  ¬ IsUintDecimal 64 (idx (strings.Split line '|') 0) ∨
  ¬ IsUintDecimal 64 (idx (strings.Split line '|') 3) ∨
  ¬ IsUintDecimal 64 (idx (strings.Split line '|') 4) ∨
  ¬ IsUintDecimal 64 (idx (strings.Split line '|') 5) ∨
  ¬ IsUintDecimal 64 (idx (strings.Split line '|') 6) ∨
  ¬ IsUintDecimal 64 (idx (strings.Split line '|') 7) ∨
  (9 ≤ (strings.Split line '|').length ∧ ¬ IsUintDecimal 64 (idx (strings.Split line '|') 8)) ∨
  (10 ≤ (strings.Split line '|').length ∧ ¬ IsUintDecimal 32 (idx (strings.Split line '|') 9)) ∨
  (11 ≤ (strings.Split line '|').length ∧ ¬ IsIntDecimal 32 (idx (strings.Split line '|') 10))

instance (line : GoString) : Decidable (DecodeFails line) := by
  unfold DecodeFails; infer_instance

/-! ## Lines made of fields, as the specification speaks of them -/

/-- The line made of the given fields: the fields with a `|` between two neighbours
(`strings.Join(fields, "|")`). -/
def joinFields : List GoString → GoString
  | [] => []
  | [f] => f
  | f :: g :: fs => f ++ '|' :: joinFields (g :: fs)

/-! ## Lemmas on `strings.Split` -/

theorem split_ne_nil (s : GoString) (sep : Char) : strings.Split s sep ≠ [] := by
  cases s with
  | nil => simp [strings.Split]
  | cons c cs =>
    unfold strings.Split
    split
    · simp
    · cases h : strings.Split cs sep <;> simp [strings.consHead]

theorem split_of_not_mem (s : GoString) (sep : Char) (h : sep ∉ s) :
    strings.Split s sep = [s] := by
  induction s with
  | nil => rfl
  | cons c cs ih =>
    have hc : c ≠ sep := fun e => h (by simp [e])
    have hcs : sep ∉ cs := fun e => h (by simp [e])
    simp [strings.Split, hc, ih hcs, strings.consHead]

theorem split_append (f rest : GoString) (sep : Char) (h : sep ∉ f) :
    strings.Split (f ++ sep :: rest) sep = f :: strings.Split rest sep := by
  induction f with
  | nil => simp [strings.Split]
  | cons c cs ih =>
    have hc : c ≠ sep := fun e => h (by simp [e])
    have hcs : sep ∉ cs := fun e => h (by simp [e])
    simp [strings.Split, hc, ih hcs, strings.consHead]

theorem not_mem_of_mem_split (s : GoString) (sep : Char) :
    ∀ f ∈ strings.Split s sep, sep ∉ f := by
  induction s with
  | nil => simp [strings.Split]
  | cons c cs ih =>
    unfold strings.Split
    split
    · intro f hf
      rcases List.mem_cons.1 hf with rfl | hf
      · simp
      · exact ih f hf
    · rename_i hc
      cases hsp : strings.Split cs sep with
      | nil => exact absurd hsp (split_ne_nil cs sep)
      | cons g gs =>
        rw [hsp] at ih
        intro f hf
        simp only [strings.consHead, List.mem_cons] at hf
        rcases hf with rfl | hf
        · intro hm
          rcases List.mem_cons.1 hm with e | hm
          · exact hc e.symm
          · exact ih g (by simp) hm
        · exact ih f (by simp [hf])

theorem replaceAll_not_mem (s : GoString) (old new : Char) (h : new ≠ old) :
    old ∉ strings.ReplaceAll s old new := by
  intro hm
  simp only [strings.ReplaceAll, List.mem_map] at hm
  obtain ⟨c, _, hc⟩ := hm
  by_cases e : c = old
  · rw [if_pos e] at hc; exact h hc
  · rw [if_neg e] at hc; exact e hc

theorem replaceAll_of_not_mem (s : GoString) (old new : Char) (h : old ∉ s) :
    strings.ReplaceAll s old new = s := by
  induction s with
  | nil => rfl
  | cons c cs ih =>
    have hc : c ≠ old := fun e => h (by simp [e])
    have hcs : old ∉ cs := fun e => h (by simp [e])
    have := ih hcs
    simp only [strings.ReplaceAll] at this ⊢
    simp [hc, this]

/-! ## Lemmas on `strconv.ParseUint` -/

theorem digitVal_of_isDigit (c : Char) (h : IsDigit c) :
    strconv.digitVal c = some (c.toNat - 48) := by
  have h0 : '0'.toNat = 48 := rfl
  have h9 : '9'.toNat = 57 := rfl
  unfold IsDigit at h
  simp only [strconv.digitVal, h0, h9]
  rw [if_pos h]

theorem digitVal_of_not_isDigit (c : Char) (h : ¬ IsDigit c) :
    strconv.digitVal c = none ∨ ∃ d, strconv.digitVal c = some d ∧ d ≥ 10 := by
  have h0 : '0'.toNat = 48 := rfl
  have h9 : '9'.toNat = 57 := rfl
  unfold IsDigit at h
  simp only [strconv.digitVal, h0, h9]
  rw [if_neg h]
  split
  · exact Or.inr ⟨_, rfl, by omega⟩
  · exact Or.inl rfl

theorem le_decimalFrom (s : GoString) : ∀ n, n ≤ decimalFrom n s := by
  induction s with
  | nil => intro n; exact Nat.le_refl _
  | cons c cs ih =>
    intro n
    have := ih (n * 10 + (c.toNat - 48))
    simp only [decimalFrom, List.foldl_cons] at this ⊢
    omega

theorem decimalFrom_cons (n : Nat) (c : Char) (cs : GoString) :
    decimalFrom n (c :: cs) = decimalFrom (n * 10 + (c.toNat - 48)) cs := rfl

theorem decimalFrom_append (n : Nat) (s t : GoString) :
    decimalFrom n (s ++ t) = decimalFrom (decimalFrom n s) t := by
  simp [decimalFrom, List.foldl_append]

theorem parseUintLoop_ok (s0 : GoString) (maxVal : Nat) (hmax : maxVal < 2 ^ 64) :
    ∀ (cs : GoString) (n : Nat), (∀ c ∈ cs, IsDigit c) → decimalFrom n cs ≤ maxVal →
      strconv.parseUintLoop s0 maxVal n cs = (decimalFrom n cs, none) := by
  intro cs
  induction cs with
  | nil => intro n _ _; rfl
  | cons c cs ih =>
    intro n hd hv
    have hc : IsDigit c := hd c (by simp)
    have hcs : ∀ x ∈ cs, IsDigit x := fun x hx => hd x (by simp [hx])
    rw [decimalFrom_cons] at hv ⊢
    have hle := le_decimalFrom cs (n * 10 + (c.toNat - 48))
    have hlt : c.toNat - 48 < 10 := by unfold IsDigit at hc; omega
    have hn : n * 10 + (c.toNat - 48) < 2 ^ 64 := by omega
    have h10 : n * 10 % 2 ^ 64 = n * 10 := Nat.mod_eq_of_lt (by omega)
    have h1 : (n * 10 + (c.toNat - 48)) % 2 ^ 64 = n * 10 + (c.toNat - 48) :=
      Nat.mod_eq_of_lt hn
    have hcut : ¬ n ≥ strconv.cutoff10 := by
      simp only [strconv.cutoff10, strconv.maxUint64]
      norm_num at hn ⊢
      omega
    unfold strconv.parseUintLoop
    rw [digitVal_of_isDigit c hc]
    simp only
    rw [if_neg (by omega), if_neg hcut, h10, h1, if_neg (by omega)]
    exact ih _ hcs hv

theorem parseUintLoop_err (s0 : GoString) (maxVal : Nat) :
    ∀ (cs : GoString) (n : Nat), ¬ ((∀ c ∈ cs, IsDigit c) ∧ decimalFrom n cs ≤ maxVal) →
      n ≤ maxVal →
      strconv.parseUintLoop s0 maxVal n cs = (0, some (strconv.syntaxError "ParseUint" s0)) ∨
      strconv.parseUintLoop s0 maxVal n cs
        = (maxVal, some (strconv.rangeError "ParseUint" s0)) := by
  intro cs
  induction cs with
  | nil =>
    intro n h hn
    exact absurd ⟨by simp, hn⟩ h
  | cons c cs ih =>
    intro n h _
    unfold strconv.parseUintLoop
    by_cases hc : IsDigit c
    · rw [digitVal_of_isDigit c hc]
      have hlt : c.toNat - 48 < 10 := by unfold IsDigit at hc; omega
      simp only
      rw [if_neg (by omega)]
      split
      · exact Or.inr rfl
      · rename_i hcut
        split
        · exact Or.inr rfl
        · rename_i hr
          have hn10 : n * 10 < 2 ^ 64 := by
            simp only [strconv.cutoff10, strconv.maxUint64] at hcut
            norm_num at hcut ⊢
            omega
          have h10 : n * 10 % 2 ^ 64 = n * 10 := Nat.mod_eq_of_lt hn10
          rw [h10] at hr ⊢
          have hn1 : n * 10 + (c.toNat - 48) < 2 ^ 64 := by
            by_contra hge
            have : (n * 10 + (c.toNat - 48)) % 2 ^ 64 = n * 10 + (c.toNat - 48) - 2 ^ 64 := by
              rw [Nat.mod_eq_sub_mod (by omega)]
              exact Nat.mod_eq_of_lt (by omega)
            omega
          have h1 : (n * 10 + (c.toNat - 48)) % 2 ^ 64 = n * 10 + (c.toNat - 48) :=
            Nat.mod_eq_of_lt hn1
          rw [h1] at hr ⊢
          apply ih
          · intro hh
            apply h
            refine ⟨?_, ?_⟩
            · intro x hx
              rcases List.mem_cons.1 hx with rfl | hx
              · exact hc
              · exact hh.1 x hx
            · rw [decimalFrom_cons]; exact hh.2
          · omega
    · rcases digitVal_of_not_isDigit c hc with e | ⟨d, e, hd⟩
      · rw [e]; exact Or.inl rfl
      · rw [e]
        simp only
        rw [if_pos hd]
        exact Or.inl rfl

theorem parseUint_ok (s : GoString) (bits : Nat) (hb : bits ≤ 64)
    (h : IsUintDecimal bits s) : strconv.ParseUint s bits = (decimalValue s, none) := by
  obtain ⟨hne, hd, hv⟩ := h
  have hp : 2 ^ bits ≤ 2 ^ 64 := Nat.pow_le_pow_right (by decide) hb
  have hpos : 0 < 2 ^ bits := Nat.two_pow_pos bits
  unfold strconv.ParseUint
  rw [if_neg hne]
  exact parseUintLoop_ok s (2 ^ bits - 1) (by omega) s 0 hd (by unfold decimalValue at hv; omega)

theorem parseUint_err_cases (s : GoString) (bits : Nat) (h : ¬ IsUintDecimal bits s) :
    strconv.ParseUint s bits = (0, some (strconv.syntaxError "ParseUint" s)) ∨
    strconv.ParseUint s bits = (2 ^ bits - 1, some (strconv.rangeError "ParseUint" s)) := by
  have hpos : 0 < 2 ^ bits := Nat.two_pow_pos bits
  unfold strconv.ParseUint
  by_cases hne : s = []
  · rw [if_pos hne]; exact Or.inl rfl
  · rw [if_neg hne]
    apply parseUintLoop_err
    · intro hh
      apply h
      exact ⟨hne, hh.1, by have := hh.2; unfold decimalValue; omega⟩
    · omega

theorem parseUint_err (s : GoString) (bits : Nat) (h : ¬ IsUintDecimal bits s) :
    ∃ v k, strconv.ParseUint s bits = (v, some (GoError.NumError "ParseUint" s k)) := by
  rcases parseUint_err_cases s bits h with e | e
  · exact ⟨_, _, e⟩
  · exact ⟨_, _, e⟩

/-! ## Lemmas on `strconv.ParseInt` -/

theorem toInt64_small (x : Int) (h1 : -(2 : Int) ^ 63 ≤ x) (h2 : x < 2 ^ 63) :
    strconv.toInt64 x = x := by
  unfold strconv.toInt64
  have : (x + 2 ^ 63) % 2 ^ 64 = x + 2 ^ 63 := Int.emod_eq_of_lt (by omega) (by omega)
  omega

theorem parseInt_sign (s : GoString) :
    (if s.head? = some '+' then s.tail else if s.head? = some '-' then s.tail else s)
      = signedDigits s ∧ decide (s.head? = some '-') = signedNeg s := by
  cases s with
  | nil => exact ⟨rfl, rfl⟩
  | cons c t =>
    by_cases hp : c = '+'
    · subst hp; exact ⟨rfl, rfl⟩
    · by_cases hm : c = '-'
      · subst hm; exact ⟨rfl, rfl⟩
      · have h1 : signedDigits (c :: t) = c :: t := by
          unfold signedDigits
          split
          · rename_i e; cases e; exact absurd rfl hp
          · rename_i e; cases e; exact absurd rfl hm
          · rfl
        have h2 : signedNeg (c :: t) = false := by
          unfold signedNeg
          split
          · rename_i e; cases e; exact absurd rfl hm
          · rfl
        rw [h1, h2]
        simp [hp, hm]

theorem parseInt32_ok (s : GoString) (h : IsIntDecimal 32 s) :
    strconv.ParseInt s 32 = (signedValue s, none) := by
  obtain ⟨hne, hd, hlo, hhi⟩ := h
  have hs : s ≠ [] := by
    intro e; subst e; exact hne rfl
  obtain ⟨e1, e2⟩ := parseInt_sign s
  have p31 : (32 - 1 : Nat) = 31 := rfl
  rw [p31] at hlo hhi
  have hv : decimalValue (signedDigits s) < 2 ^ 32 := by
    unfold signedValue at hlo hhi
    split at hlo
    · omega
    · rw [if_neg (by assumption)] at hhi; omega
  have hu := parseUint_ok (signedDigits s) 32 (by decide) ⟨hne, hd, hv⟩
  unfold strconv.ParseInt
  rw [if_neg hs]
  simp only [e1, e2, hu, p31]
  unfold signedValue at hlo hhi ⊢
  cases hneg : signedNeg s
  · simp only [hneg, Bool.false_eq_true, if_false] at hlo hhi ⊢
    rw [if_neg (by omega), if_neg (by omega), toInt64_small _ (by omega) (by omega)]
  · simp only [hneg, if_true] at hlo hhi ⊢
    have hin := toInt64_small (decimalValue (signedDigits s) : Int) (by omega) (by omega)
    rw [if_neg (by simp), if_neg (by omega), hin, toInt64_small _ (by omega) (by omega)]

theorem parseInt32_err (s : GoString) (h : ¬ IsIntDecimal 32 s) :
    ∃ v k, strconv.ParseInt s 32 = (v, some (GoError.NumError "ParseInt" s k)) := by
  unfold strconv.ParseInt
  by_cases hs : s = []
  · rw [if_pos hs]; exact ⟨_, _, rfl⟩
  · rw [if_neg hs]
    obtain ⟨e1, e2⟩ := parseInt_sign s
    have p31 : (32 - 1 : Nat) = 31 := rfl
    simp only [e1, e2, p31]
    by_cases hu : IsUintDecimal 32 (signedDigits s)
    · rw [parseUint_ok _ 32 (by decide) hu]
      obtain ⟨hne, hd, hv⟩ := hu
      have hr : ¬ (-(2 : Int) ^ 31 ≤ signedValue s ∧ signedValue s < 2 ^ 31) :=
        fun hh => h ⟨hne, hd, hh.1, hh.2⟩
      unfold signedValue at hr
      cases hneg : signedNeg s
      · simp only [hneg, Bool.false_eq_true, if_false] at hr ⊢
        rw [if_pos ⟨by simp, by omega⟩]
        exact ⟨_, _, rfl⟩
      · simp only [hneg, if_true] at hr ⊢
        rw [if_neg (by simp), if_pos ⟨by simp, by omega⟩]
        exact ⟨_, _, rfl⟩
    · rcases parseUint_err_cases _ 32 hu with e | e
      · rw [e]; exact ⟨_, _, rfl⟩
      · rw [e]
        simp only [strconv.rangeError]
        cases hneg : signedNeg s
        · rw [if_pos ⟨by simp, by omega⟩]
          exact ⟨_, _, rfl⟩
        · rw [if_neg (by simp), if_pos ⟨by simp, by omega⟩]
          exact ⟨_, _, rfl⟩

/-! ## Lemmas on the verb `%d` -/

theorem digitByte_toNat (d : Nat) (h : d < 10) : (fmt.digitByte d).toNat = 48 + d := by
  unfold fmt.digitByte
  interval_cases d <;> rfl

theorem digitByte_isDigit (d : Nat) (h : d < 10) : IsDigit (fmt.digitByte d) := by
  unfold IsDigit
  rw [digitByte_toNat d h]
  omega

theorem fmtDigits_eq : ∀ (fuel u : Nat) (buf : GoString), u < fuel →
    fmt.fmtDigits fuel u buf = fmt.fmtUint u ++ buf := by
  intro fuel
  induction fuel using Nat.strong_induction_on with
  | _ fuel ih =>
    intro u buf hu
    cases fuel with
    | zero => omega
    | succ k =>
      unfold fmt.fmtUint
      by_cases h10 : u ≥ 10
      · have e1 : fmt.fmtDigits (k + 1) u buf
            = fmt.fmtDigits k (u / 10) (fmt.digitByte (u % 10) :: buf) := by
          rw [fmt.fmtDigits, if_pos h10]
        have e2 : fmt.fmtDigits (u + 1) u []
            = fmt.fmtDigits u (u / 10) [fmt.digitByte (u % 10)] := by
          rw [fmt.fmtDigits, if_pos h10]
        rw [e1, e2, ih k (by omega) _ _ (by omega), ih u (by omega) _ _ (by omega)]
        simp
      · have e1 : fmt.fmtDigits (k + 1) u buf = fmt.digitByte u :: buf := by
          rw [fmt.fmtDigits, if_neg h10]
        have e2 : fmt.fmtDigits (u + 1) u [] = [fmt.digitByte u] := by
          rw [fmt.fmtDigits, if_neg h10]
        rw [e1, e2]
        rfl

theorem fmtUint_lt (u : Nat) (h : u < 10) : fmt.fmtUint u = [fmt.digitByte u] := by
  unfold fmt.fmtUint
  rw [fmt.fmtDigits, if_neg (by omega)]

theorem fmtUint_ge (u : Nat) (h : u ≥ 10) :
    fmt.fmtUint u = fmt.fmtUint (u / 10) ++ [fmt.digitByte (u % 10)] := by
  have e : fmt.fmtUint u = fmt.fmtDigits u (u / 10) [fmt.digitByte (u % 10)] := by
    unfold fmt.fmtUint
    rw [fmt.fmtDigits, if_pos h]
  rw [e, fmtDigits_eq u (u / 10) _ (by omega)]

theorem fmtUint_ne_nil (u : Nat) : fmt.fmtUint u ≠ [] := by
  by_cases h : u < 10
  · rw [fmtUint_lt u h]; simp
  · rw [fmtUint_ge u (by omega)]; simp

theorem fmtUint_isDigit (u : Nat) : ∀ c ∈ fmt.fmtUint u, IsDigit c := by
  induction u using Nat.strong_induction_on with
  | _ u ih =>
    by_cases h : u < 10
    · rw [fmtUint_lt u h]
      intro c hc
      rw [List.mem_singleton] at hc
      subst hc
      exact digitByte_isDigit u h
    · rw [fmtUint_ge u (by omega)]
      intro c hc
      rcases List.mem_append.1 hc with hc | hc
      · exact ih (u / 10) (by omega) c hc
      · rw [List.mem_singleton] at hc
        subst hc
        exact digitByte_isDigit _ (by omega)

theorem decimalValue_fmtUint (u : Nat) : decimalValue (fmt.fmtUint u) = u := by
  induction u using Nat.strong_induction_on with
  | _ u ih =>
    by_cases h : u < 10
    · rw [fmtUint_lt u h]
      simp only [decimalValue, decimalFrom, List.foldl_cons, List.foldl_nil]
      rw [digitByte_toNat u h]
      omega
    · have hq := ih (u / 10) (by omega)
      unfold decimalValue at hq ⊢
      rw [fmtUint_ge u (by omega), decimalFrom_append, hq]
      simp only [decimalFrom, List.foldl_cons, List.foldl_nil]
      rw [digitByte_toNat _ (by omega)]
      omega

theorem isUintDecimal_fmtUint (bits u : Nat) (h : u < 2 ^ bits) :
    IsUintDecimal bits (fmt.fmtUint u) :=
  ⟨fmtUint_ne_nil u, fmtUint_isDigit u, by rw [decimalValue_fmtUint]; exact h⟩

theorem parseUint_fmtUint (bits u : Nat) (hb : bits ≤ 64) (h : u < 2 ^ bits) :
    strconv.ParseUint (fmt.fmtUint u) bits = (u, none) := by
  rw [parseUint_ok _ bits hb (isUintDecimal_fmtUint bits u h), decimalValue_fmtUint]

theorem signedDigits_of_isDigit (c : Char) (t : GoString) (h : IsDigit c) :
    signedDigits (c :: t) = c :: t ∧ signedNeg (c :: t) = false := by
  have hp : c ≠ '+' := by
    intro e; subst e; revert h; decide
  have hm : c ≠ '-' := by
    intro e; subst e; revert h; decide
  constructor
  · unfold signedDigits
    split
    · rename_i e; cases e; exact absurd rfl hp
    · rename_i e; cases e; exact absurd rfl hm
    · rfl
  · unfold signedNeg
    split
    · rename_i e; cases e; exact absurd rfl hm
    · rfl

theorem signed_fmtUint (u : Nat) :
    signedDigits (fmt.fmtUint u) = fmt.fmtUint u ∧ signedNeg (fmt.fmtUint u) = false := by
  have hd := fmtUint_isDigit u
  cases h : fmt.fmtUint u with
  | nil => exact ⟨rfl, rfl⟩
  | cons c t =>
    rw [h] at hd
    exact signedDigits_of_isDigit c t (hd c (by simp))

theorem signedValue_fmtInt (k : Int) : signedValue (fmt.fmtInt k) = k := by
  unfold fmt.fmtInt
  by_cases hk : k < 0
  · rw [if_pos hk]
    have e1 : signedDigits ('-' :: fmt.fmtUint (-k).toNat) = fmt.fmtUint (-k).toNat := rfl
    have e2 : signedNeg ('-' :: fmt.fmtUint (-k).toNat) = true := rfl
    unfold signedValue
    rw [e1, e2, if_pos rfl, decimalValue_fmtUint]
    omega
  · rw [if_neg hk]
    unfold signedValue
    rw [(signed_fmtUint _).1, (signed_fmtUint _).2, decimalValue_fmtUint]
    simp only [Bool.false_eq_true, if_false]
    omega

theorem signedDigits_fmtInt (k : Int) :
    signedDigits (fmt.fmtInt k) = fmt.fmtUint k.natAbs := by
  unfold fmt.fmtInt
  by_cases hk : k < 0
  · rw [if_pos hk]
    have e : (-k).toNat = k.natAbs := by omega
    rw [e]
    rfl
  · rw [if_neg hk, (signed_fmtUint _).1]
    have e : k.toNat = k.natAbs := by omega
    rw [e]

theorem isIntDecimal_fmtInt (k : Int) (h1 : -(2 : Int) ^ 31 ≤ k) (h2 : k < 2 ^ 31) :
    IsIntDecimal 32 (fmt.fmtInt k) := by
  refine ⟨?_, ?_, ?_, ?_⟩
  · rw [signedDigits_fmtInt]; exact fmtUint_ne_nil _
  · rw [signedDigits_fmtInt]; exact fmtUint_isDigit _
  · rw [signedValue_fmtInt]; exact h1
  · rw [signedValue_fmtInt]; exact h2

theorem parseInt32_fmtInt (k : Int) (h1 : -(2 : Int) ^ 31 ≤ k) (h2 : k < 2 ^ 31) :
    strconv.ParseInt (fmt.fmtInt k) 32 = (k, none) := by
  rw [parseInt32_ok _ (isIntDecimal_fmtInt k h1 h2), signedValue_fmtInt]

theorem sep_not_mem_of_isDigit (s : GoString) (h : ∀ c ∈ s, IsDigit c) : '|' ∉ s := by
  intro hm
  have := h _ hm
  revert this
  decide

theorem sep_not_mem_fmtUint (u : Nat) : '|' ∉ fmt.fmtUint u :=
  sep_not_mem_of_isDigit _ (fmtUint_isDigit u)

theorem sep_not_mem_fmtInt (k : Int) : '|' ∉ fmt.fmtInt k := by
  unfold fmt.fmtInt
  split
  · intro hm
    rcases List.mem_cons.1 hm with e | hm
    · revert e; decide
    · exact sep_not_mem_fmtUint _ hm
  · exact sep_not_mem_fmtUint _

/-! ## The decoder, field by field -/

theorem toInt32_small (x : Int) (h1 : -(2 : Int) ^ 31 ≤ x) (h2 : x < 2 ^ 31) :
    toInt32 x = x := by
  unfold toInt32
  have : (x + 2 ^ 31) % 2 ^ 32 = x + 2 ^ 31 := Int.emod_eq_of_lt (by omega) (by omega)
  omega

theorem toUint32_small (x : Nat) (h : x < 2 ^ 32) : toUint32 x = x :=
  Nat.mod_eq_of_lt h

theorem classification_ok (arr : List GoString) (item : MetricItem)
    (h : 11 ≤ arr.length → IsIntDecimal 32 (idx arr 10)) :
    fromFatStringClassification arr item =
      (some { item with Classification :=
                if 11 ≤ arr.length then signedValue (idx arr 10) else item.Classification },
       none) := by
  unfold fromFatStringClassification
  by_cases hl : 11 ≤ arr.length
  · have hv := h hl
    rw [if_pos hl, if_pos hl, parseInt32_ok _ hv]
    simp only
    rw [toInt32_small _ hv.2.2.1 hv.2.2.2]
  · rw [if_neg hl, if_neg hl]

theorem classification_err (arr : List GoString) (item : MetricItem)
    (hl : 11 ≤ arr.length) (h : ¬ IsIntDecimal 32 (idx arr 10)) :
    ∃ k, fromFatStringClassification arr item =
      (none, some (GoError.NumError "ParseInt" (idx arr 10) k)) := by
  unfold fromFatStringClassification
  obtain ⟨v, k, e⟩ := parseInt32_err _ h
  rw [if_pos hl, e]
  exact ⟨k, rfl⟩

theorem concurrency_ok (arr : List GoString) (item : MetricItem)
    (h10 : 10 ≤ arr.length → IsUintDecimal 32 (idx arr 9))
    (h11 : 11 ≤ arr.length → IsIntDecimal 32 (idx arr 10)) :
    fromFatStringConcurrency arr item =
      (some { item with
                Concurrency :=
                  if 10 ≤ arr.length then decimalValue (idx arr 9) else item.Concurrency
                Classification :=
                  if 11 ≤ arr.length then signedValue (idx arr 10) else item.Classification },
       none) := by
  unfold fromFatStringConcurrency
  by_cases hl : 10 ≤ arr.length
  · have hv := h10 hl
    rw [if_pos hl, if_pos hl, parseUint_ok _ 32 (by decide) hv]
    simp only
    rw [classification_ok _ _ h11, toUint32_small _ hv.2.2]
  · rw [if_neg hl, if_neg hl, classification_ok _ _ h11]

theorem concurrency_err (arr : List GoString) (item : MetricItem)
    (h : ¬ ((10 ≤ arr.length → IsUintDecimal 32 (idx arr 9)) ∧
            (11 ≤ arr.length → IsIntDecimal 32 (idx arr 10)))) :
    ∃ e, fromFatStringConcurrency arr item = (none, some e) := by
  unfold fromFatStringConcurrency
  by_cases hl : 10 ≤ arr.length
  · rw [if_pos hl]
    by_cases hv : IsUintDecimal 32 (idx arr 9)
    · rw [parseUint_ok _ 32 (by decide) hv]
      simp only
      have h11 : ¬ (11 ≤ arr.length → IsIntDecimal 32 (idx arr 10)) :=
        fun hh => h ⟨fun _ => hv, hh⟩
      have hl11 : 11 ≤ arr.length := by
        by_contra hc; exact h11 (fun x => absurd x hc)
      obtain ⟨k, e⟩ := classification_err arr _ hl11 (fun x => h11 (fun _ => x))
      exact ⟨_, e⟩
    · obtain ⟨v, k, e⟩ := parseUint_err _ 32 hv
      rw [e]
      exact ⟨_, rfl⟩
  · exfalso
    exact h ⟨fun x => absurd x hl, fun x => absurd (by omega) hl⟩

theorem occupied_ok (arr : List GoString) (item : MetricItem)
    (h9 : 9 ≤ arr.length → IsUintDecimal 64 (idx arr 8))
    (h10 : 10 ≤ arr.length → IsUintDecimal 32 (idx arr 9))
    (h11 : 11 ≤ arr.length → IsIntDecimal 32 (idx arr 10)) :
    fromFatStringOccupied arr item =
      (some { item with
                OccupiedPassQps :=
                  if 9 ≤ arr.length then decimalValue (idx arr 8) else item.OccupiedPassQps
                Concurrency :=
                  if 10 ≤ arr.length then decimalValue (idx arr 9) else item.Concurrency
                Classification :=
                  if 11 ≤ arr.length then signedValue (idx arr 10) else item.Classification },
       none) := by
  unfold fromFatStringOccupied
  by_cases hl : 9 ≤ arr.length
  · have hv := h9 hl
    rw [if_pos hl, if_pos hl, parseUint_ok _ 64 (by decide) hv]
    simp only
    rw [concurrency_ok _ _ h10 h11]
  · rw [if_neg hl, if_neg hl, concurrency_ok _ _ h10 h11]

theorem occupied_err (arr : List GoString) (item : MetricItem)
    (h : ¬ ((9 ≤ arr.length → IsUintDecimal 64 (idx arr 8)) ∧
            (10 ≤ arr.length → IsUintDecimal 32 (idx arr 9)) ∧
            (11 ≤ arr.length → IsIntDecimal 32 (idx arr 10)))) :
    ∃ e, fromFatStringOccupied arr item = (none, some e) := by
  unfold fromFatStringOccupied
  by_cases hl : 9 ≤ arr.length
  · rw [if_pos hl]
    by_cases hv : IsUintDecimal 64 (idx arr 8)
    · rw [parseUint_ok _ 64 (by decide) hv]
      simp only
      exact concurrency_err arr _ (fun hh => h ⟨fun _ => hv, hh.1, hh.2⟩)
    · obtain ⟨v, k, e⟩ := parseUint_err _ 64 hv
      rw [e]
      exact ⟨_, rfl⟩
  · exfalso
    exact h ⟨fun x => absurd x hl, fun x => absurd (by omega) hl,
      fun x => absurd (by omega) hl⟩

theorem decode_ok (line : GoString) (hne : line ≠ [])
    (hlen : 8 ≤ (strings.Split line '|').length)
    (hv : ValidFields (strings.Split line '|')) :
    MetricItemFromFatString line = (some (fieldsRecord (strings.Split line '|')), none) := by
  obtain ⟨h0, h3, h4, h5, h6, h7, h8, h9, h10⟩ := hv
  have hl : ¬ line.length = 0 := fun e => hne (List.length_eq_zero.1 e)
  unfold MetricItemFromFatString
  rw [if_neg hl]
  simp only [metricPartSeparator]
  rw [if_neg (by omega)]
  rw [parseUint_ok _ 64 (by decide) h0, parseUint_ok _ 64 (by decide) h3,
    parseUint_ok _ 64 (by decide) h4, parseUint_ok _ 64 (by decide) h5,
    parseUint_ok _ 64 (by decide) h6, parseUint_ok _ 64 (by decide) h7]
  simp only
  rw [occupied_ok _ _ h8 h9 h10]
  rfl

theorem decode_err (line : GoString)
    (h : ¬ (line ≠ [] ∧ 8 ≤ (strings.Split line '|').length ∧
            ValidFields (strings.Split line '|'))) :
    ∃ e, MetricItemFromFatString line = (none, some e) := by
  unfold MetricItemFromFatString
  by_cases hl : line.length = 0
  · rw [if_pos hl]; exact ⟨_, rfl⟩
  rw [if_neg hl]
  have hne : line ≠ [] := fun e => hl (by rw [e]; rfl)
  simp only [metricPartSeparator]
  by_cases hlen : (strings.Split line '|').length < 8
  · rw [if_pos hlen]; exact ⟨_, rfl⟩
  rw [if_neg hlen]
  have hv : ¬ ValidFields (strings.Split line '|') := fun hh => h ⟨hne, by omega, hh⟩
  unfold ValidFields at hv
  by_cases h0 : IsUintDecimal 64 (idx (strings.Split line '|') 0)
  swap
  · obtain ⟨v, k, e⟩ := parseUint_err _ 64 h0
    rw [e]; exact ⟨_, rfl⟩
  rw [parseUint_ok _ 64 (by decide) h0]
  simp only
  by_cases h3 : IsUintDecimal 64 (idx (strings.Split line '|') 3)
  swap
  · obtain ⟨v, k, e⟩ := parseUint_err _ 64 h3
    rw [e]; exact ⟨_, rfl⟩
  rw [parseUint_ok _ 64 (by decide) h3]
  simp only
  by_cases h4 : IsUintDecimal 64 (idx (strings.Split line '|') 4)
  swap
  · obtain ⟨v, k, e⟩ := parseUint_err _ 64 h4
    rw [e]; exact ⟨_, rfl⟩
  rw [parseUint_ok _ 64 (by decide) h4]
  simp only
  by_cases h5 : IsUintDecimal 64 (idx (strings.Split line '|') 5)
  swap
  · obtain ⟨v, k, e⟩ := parseUint_err _ 64 h5
    rw [e]; exact ⟨_, rfl⟩
  rw [parseUint_ok _ 64 (by decide) h5]
  simp only
  by_cases h6 : IsUintDecimal 64 (idx (strings.Split line '|') 6)
  swap
  · obtain ⟨v, k, e⟩ := parseUint_err _ 64 h6
    rw [e]; exact ⟨_, rfl⟩
  rw [parseUint_ok _ 64 (by decide) h6]
  simp only
  by_cases h7 : IsUintDecimal 64 (idx (strings.Split line '|') 7)
  swap
  · obtain ⟨v, k, e⟩ := parseUint_err _ 64 h7
    rw [e]; exact ⟨_, rfl⟩
  rw [parseUint_ok _ 64 (by decide) h7]
  simp only
  exact occupied_err _ _ (fun hh => hv ⟨h0, h3, h4, h5, h6, h7, hh.1, hh.2.1, hh.2.2⟩)

/-! ## The encoders -/

theorem toFatString_eq (F : Nat → GoString) (m : MetricItem) :
    m.ToFatString F =
      (fatFormat m.Timestamp (F m.Timestamp) (strings.ReplaceAll m.Resource '|' '_')
        m.PassQps m.BlockQps m.CompleteQps m.ErrorQps m.AvgRt m.OccupiedPassQps
        m.Concurrency m.Classification, none) := rfl

theorem toThinString_eq (m : MetricItem) :
    m.ToThinString =
      (thinFormat m.Timestamp (strings.ReplaceAll m.Resource '|' '_')
        m.PassQps m.BlockQps m.CompleteQps m.ErrorQps m.AvgRt m.OccupiedPassQps
        m.Concurrency m.Classification, none) := rfl

theorem split_fatFormat (ts : Nat) (timeStr finalName : GoString)
    (p b c e rt oc conc : Nat) (cl : Int) (h1 : '|' ∉ timeStr) (h2 : '|' ∉ finalName) :
    strings.Split (fatFormat ts timeStr finalName p b c e rt oc conc cl) '|' =
      [fmt.fmtUint ts, timeStr, finalName, fmt.fmtUint p, fmt.fmtUint b, fmt.fmtUint c,
       fmt.fmtUint e, fmt.fmtUint rt, fmt.fmtUint oc, fmt.fmtUint conc, fmt.fmtInt cl] := by
  unfold fatFormat
  simp only [List.append_assoc, List.cons_append]
  rw [split_append _ _ _ (sep_not_mem_fmtUint _), split_append _ _ _ h1,
    split_append _ _ _ h2, split_append _ _ _ (sep_not_mem_fmtUint _),
    split_append _ _ _ (sep_not_mem_fmtUint _), split_append _ _ _ (sep_not_mem_fmtUint _),
    split_append _ _ _ (sep_not_mem_fmtUint _), split_append _ _ _ (sep_not_mem_fmtUint _),
    split_append _ _ _ (sep_not_mem_fmtUint _), split_append _ _ _ (sep_not_mem_fmtUint _),
    split_of_not_mem _ _ (sep_not_mem_fmtInt _)]

theorem split_thinFormat (ts : Nat) (finalName : GoString)
    (p b c e rt oc conc : Nat) (cl : Int) (h2 : '|' ∉ finalName) :
    strings.Split (thinFormat ts finalName p b c e rt oc conc cl) '|' =
      [fmt.fmtUint ts, finalName, fmt.fmtUint p, fmt.fmtUint b, fmt.fmtUint c,
       fmt.fmtUint e, fmt.fmtUint rt, fmt.fmtUint oc, fmt.fmtUint conc, fmt.fmtInt cl] := by
  unfold thinFormat
  simp only [List.append_assoc, List.cons_append]
  rw [split_append _ _ _ (sep_not_mem_fmtUint _),
    split_append _ _ _ h2, split_append _ _ _ (sep_not_mem_fmtUint _),
    split_append _ _ _ (sep_not_mem_fmtUint _), split_append _ _ _ (sep_not_mem_fmtUint _),
    split_append _ _ _ (sep_not_mem_fmtUint _), split_append _ _ _ (sep_not_mem_fmtUint _),
    split_append _ _ _ (sep_not_mem_fmtUint _), split_append _ _ _ (sep_not_mem_fmtUint _),
    split_of_not_mem _ _ (sep_not_mem_fmtInt _)]

theorem split_toFatString (F : Nat → GoString) (m : MetricItem) (hF : '|' ∉ F m.Timestamp) :
    strings.Split (m.ToFatString F).1 '|' = fatFields F m := by
  rw [toFatString_eq]
  exact split_fatFormat _ _ _ _ _ _ _ _ _ _ _ hF (replaceAll_not_mem _ _ _ (by decide))

theorem split_toThinString (m : MetricItem) :
    strings.Split m.ToThinString.1 '|' = thinFields m := by
  rw [toThinString_eq]
  exact split_thinFormat _ _ _ _ _ _ _ _ _ _ (replaceAll_not_mem _ _ _ (by decide))

theorem fatFormat_ne_nil (ts : Nat) (timeStr finalName : GoString)
    (p b c e rt oc conc : Nat) (cl : Int) :
    fatFormat ts timeStr finalName p b c e rt oc conc cl ≠ [] := by
  unfold fatFormat
  intro h
  have := congrArg List.length h
  simp at this

theorem validFields_fatFields (F : Nat → GoString) (m : MetricItem) (hm : m.InRange) :
    ValidFields (fatFields F m) := by
  obtain ⟨c1, c2, hts, hp, hb, hc, he, hrt, hoc, hcc⟩ := hm
  refine ⟨?_, ?_, ?_, ?_, ?_, ?_, ?_, ?_, ?_⟩
  · exact isUintDecimal_fmtUint 64 _ hts
  · exact isUintDecimal_fmtUint 64 _ hp
  · exact isUintDecimal_fmtUint 64 _ hb
  · exact isUintDecimal_fmtUint 64 _ hc
  · exact isUintDecimal_fmtUint 64 _ he
  · exact isUintDecimal_fmtUint 64 _ hrt
  · intro _; exact isUintDecimal_fmtUint 64 _ hoc
  · intro _; exact isUintDecimal_fmtUint 32 _ hcc
  · intro _; exact isIntDecimal_fmtInt _ c1 c2

theorem fieldsRecord_fatFields (F : Nat → GoString) (m : MetricItem) :
    fieldsRecord (fatFields F m) = { m with Resource := strings.ReplaceAll m.Resource '|' '_' } := by
  simp [fieldsRecord, fatFields, idx, decimalValue_fmtUint, signedValue_fmtInt]

theorem decode_toFatString (F : Nat → GoString) (m : MetricItem) (hm : m.InRange)
    (hF : '|' ∉ F m.Timestamp) :
    MetricItemFromFatString (m.ToFatString F).1 =
      (some { m with Resource := strings.ReplaceAll m.Resource '|' '_' }, none) := by
  have hs := split_toFatString F m hF
  have hne : (m.ToFatString F).1 ≠ [] := by
    rw [toFatString_eq]; exact fatFormat_ne_nil _ _ _ _ _ _ _ _ _ _ _
  rw [decode_ok _ hne (by rw [hs]; simp [fatFields]) (by rw [hs]; exact validFields_fatFields F m hm),
    hs, fieldsRecord_fatFields]

/-! ## The claims on the encoders -/

/-- Claim C1, the verbose round trip: for a record whose fields fit their Go types and
whose resource name holds no `|`, the formatted time holding no `|` either,
`ToFatString` returns a line and a nil error, and `MetricItemFromFatString` on that
line returns the record itself, equal in every field, and a nil error. -/
theorem verbose_round_trip (F : Nat → GoString) (r : MetricItem) (hr : r.InRange)
    (hres : '|' ∉ r.Resource) (hF : '|' ∉ F r.Timestamp) :
    (r.ToFatString F).2 = none ∧
    MetricItemFromFatString (r.ToFatString F).1 = (some r, none) := by
  refine ⟨rfl, ?_⟩
  rw [decode_toFatString F r hr hF, replaceAll_of_not_mem _ _ _ hres]

theorem verbose_round_trip_witness :
    exampleItem.InRange ∧ '|' ∉ exampleItem.Resource ∧
    '|' ∉ exampleFormatTime exampleItem.Timestamp ∧
    (exampleItem.ToFatString exampleFormatTime).2 = none ∧
    MetricItemFromFatString (exampleItem.ToFatString exampleFormatTime).1
      = (some exampleItem, none) :=
  ⟨by decide, by decide, by decide,
   verbose_round_trip exampleFormatTime exampleItem (by decide) (by decide) (by decide)⟩

/-- Claim C2, delimiter sanitization and field count: whatever the resource name of a
record holds, the line of `ToFatString` splits on `|` into exactly 11 fields, the field
at index 2 is the resource name with every `|` replaced by `_` and holds no `|`; the
resource name `a|b` is emitted as `a_b`. The formatted time is assumed to hold no `|`. -/
theorem sanitized_field_count (F : Nat → GoString) (r : MetricItem)
    (hF : '|' ∉ F r.Timestamp) :
    (strings.Split (r.ToFatString F).1 '|').length = 11 ∧
    idx (strings.Split (r.ToFatString F).1 '|') 2
      = r.Resource.map (fun c => if c = '|' then '_' else c) ∧
    '|' ∉ idx (strings.Split (r.ToFatString F).1 '|') 2 ∧
    (r.Resource = "a|b".toList →
      idx (strings.Split (r.ToFatString F).1 '|') 2 = "a_b".toList) := by
  rw [split_toFatString F r hF]
  refine ⟨rfl, rfl, ?_, ?_⟩
  · exact replaceAll_not_mem _ _ _ (by decide)
  · intro h
    show strings.ReplaceAll r.Resource '|' '_' = _
    rw [h]
    decide

theorem sanitized_field_count_witness :
    '|' ∉ exampleFormatTime pipeItem.Timestamp ∧
    (strings.Split (pipeItem.ToFatString exampleFormatTime).1 '|').length = 11 ∧
    idx (strings.Split (pipeItem.ToFatString exampleFormatTime).1 '|') 2 = "a_b".toList :=
  ⟨by decide,
   (sanitized_field_count exampleFormatTime pipeItem (by decide)).1,
   (sanitized_field_count exampleFormatTime pipeItem (by decide)).2.2.2 rfl⟩

/-- Claim C3, the verbose field order: the fields of the line of `ToFatString`, split on
`|`, are in this order the decimal text of `Timestamp`, the formatted time of
`Timestamp`, the sanitized resource name, and the decimal texts of `PassQps`,
`BlockQps`, `CompleteQps`, `ErrorQps`, `AvgRt`, `OccupiedPassQps`, `Concurrency` and of
the signed `Classification`; the record of the example encodes to
`1600000000000|<formatted-time>|svc-a|10|2|8|0|15|1|3|0`. The formatted time is assumed
to hold no `|`. -/
theorem verbose_field_order (F : Nat → GoString) (r : MetricItem)
    (hF : '|' ∉ F r.Timestamp) :
    strings.Split (r.ToFatString F).1 '|' =
      [fmt.fmtUint r.Timestamp, F r.Timestamp, strings.ReplaceAll r.Resource '|' '_',
       fmt.fmtUint r.PassQps, fmt.fmtUint r.BlockQps, fmt.fmtUint r.CompleteQps,
       fmt.fmtUint r.ErrorQps, fmt.fmtUint r.AvgRt, fmt.fmtUint r.OccupiedPassQps,
       fmt.fmtUint r.Concurrency, fmt.fmtInt r.Classification] ∧
    (exampleItem.ToFatString F).1 =
      "1600000000000|".toList ++ F 1600000000000 ++ "|svc-a|10|2|8|0|15|1|3|0".toList :=
  ⟨split_toFatString F r hF, by
    have eA : fmt.fmtUint 1600000000000 ++ ['|'] = "1600000000000|".toList := by decide
    have eB : '|' :: (strings.ReplaceAll "svc-a".toList '|' '_' ++ '|' :: (fmt.fmtUint 10 ++
        '|' :: (fmt.fmtUint 2 ++ '|' :: (fmt.fmtUint 8 ++ '|' :: (fmt.fmtUint 0 ++
        '|' :: (fmt.fmtUint 15 ++ '|' :: (fmt.fmtUint 1 ++ '|' :: (fmt.fmtUint 3 ++
        '|' :: fmt.fmtInt 0))))))))
        = "|svc-a|10|2|8|0|15|1|3|0".toList := by decide
    rw [← eA, ← eB, toFatString_eq]
    simp only [fatFormat, exampleItem, List.append_assoc, List.cons_append, List.nil_append]⟩

theorem verbose_field_order_witness :
    '|' ∉ exampleFormatTime exampleItem.Timestamp ∧
    strings.Split (exampleItem.ToFatString exampleFormatTime).1 '|' =
      ["1600000000000".toList, "2020-09-13 12:26:40".toList, "svc-a".toList, "10".toList,
       "2".toList, "8".toList, "0".toList, "15".toList, "1".toList, "3".toList,
       "0".toList] :=
  ⟨by decide, (verbose_field_order exampleFormatTime exampleItem (by decide)).1⟩

/-- Claim C4, the compact line is the verbose line without the formatted time: for every
record, whatever its resource name and the sign of its classification, the line of
`ToThinString` splits on `|` into exactly 10 fields, and these are the fields of the
line of `ToFatString` with the field at index 1 removed. The formatted time is assumed
to hold no `|`. -/
theorem thin_is_fat_without_time (F : Nat → GoString) (r : MetricItem)
    (hF : '|' ∉ F r.Timestamp) :
    (strings.Split r.ToThinString.1 '|').length = 10 ∧
    strings.Split r.ToThinString.1 '|'
      = (strings.Split (r.ToFatString F).1 '|').eraseIdx 1 := by
  rw [split_toFatString F r hF, split_toThinString]
  exact ⟨rfl, rfl⟩

theorem thin_is_fat_without_time_witness :
    '|' ∉ exampleFormatTime pipeItem.Timestamp ∧
    strings.Split pipeItem.ToThinString.1 '|' =
      ["18446744073709551615".toList, "a_b".toList, "0".toList, "1".toList, "2".toList,
       "3".toList, "4".toList, "18446744073709551615".toList, "4294967295".toList,
       "-2147483648".toList] ∧
    strings.Split pipeItem.ToThinString.1 '|'
      = (strings.Split (pipeItem.ToFatString exampleFormatTime).1 '|').eraseIdx 1 :=
  ⟨by decide, by decide, (thin_is_fat_without_time exampleFormatTime pipeItem (by decide)).2⟩

/-! ## The claims on the decoder -/

theorem decodeFails_iff (line : GoString) :
    DecodeFails line ↔
      ¬ (line ≠ [] ∧ 8 ≤ (strings.Split line '|').length ∧
          ValidFields (strings.Split line '|')) := by
  unfold DecodeFails ValidFields
  rw [← Nat.not_le]
  tauto

/-- Claim C5, when the decoding fails: `MetricItemFromFatString` returns an error and no
record exactly when the line is empty, or has fewer than 8 fields, or one of the fields
0, 3, 4, 5, 6, 7 is not a valid unsigned 64-bit decimal, or a present field 8, 9 or 10 is
not a valid decimal of its type; in every other case it returns a record and no error;
it never returns a record together with an error. -/
theorem decode_fails_exactly_when (line : GoString) :
    ((∃ e, MetricItemFromFatString line = (none, some e)) ↔ DecodeFails line) ∧
    ((∃ item, MetricItemFromFatString line = (some item, none)) ↔ ¬ DecodeFails line) ∧
    (∀ item e, MetricItemFromFatString line ≠ (some item, some e)) := by
  by_cases h : DecodeFails line
  · obtain ⟨e, he⟩ := decode_err line ((decodeFails_iff line).1 h)
    refine ⟨⟨fun _ => h, fun _ => ⟨e, he⟩⟩, ⟨?_, fun hn => absurd h hn⟩, ?_⟩
    · rintro ⟨item, hi⟩
      rw [he] at hi
      cases hi
    · intro item e2 hi
      rw [he] at hi
      cases hi
  · have hv : line ≠ [] ∧ 8 ≤ (strings.Split line '|').length ∧
        ValidFields (strings.Split line '|') := by
      by_contra hc
      exact h ((decodeFails_iff line).2 hc)
    have hok := decode_ok line hv.1 hv.2.1 hv.2.2
    refine ⟨⟨?_, fun hd => absurd hd h⟩, ⟨fun _ => h, fun _ => ⟨_, hok⟩⟩, ?_⟩
    · rintro ⟨e, he⟩
      rw [hok] at he
      cases he
    · intro item e2 hi
      rw [hok] at hi
      cases hi

theorem decode_mandatory_err (line : GoString) (hlen : 8 ≤ (strings.Split line '|').length)
    (h0 : IsUintDecimal 64 (idx (strings.Split line '|') 0)) :
    MetricItemFromFatString line =
      match strconv.ParseUint (idx (strings.Split line '|') 3) 64 with
      | (_, some err) => (none, some err)
      | (_, none) =>
        match strconv.ParseUint (idx (strings.Split line '|') 4) 64 with
        | (_, some err) => (none, some err)
        | (_, none) => MetricItemFromFatString line := by
  have hne : line ≠ [] := by
    intro e; subst e; revert hlen; decide
  have hl : ¬ line.length = 0 := fun e => hne (List.length_eq_zero.1 e)
  by_cases h3 : IsUintDecimal 64 (idx (strings.Split line '|') 3)
  · rw [parseUint_ok _ 64 (by decide) h3]
    simp only
    by_cases h4 : IsUintDecimal 64 (idx (strings.Split line '|') 4)
    · rw [parseUint_ok _ 64 (by decide) h4]
    · obtain ⟨v, k, e⟩ := parseUint_err _ 64 h4
      rw [e]
      simp only
      unfold MetricItemFromFatString
      rw [if_neg hl]
      simp only [metricPartSeparator]
      rw [if_neg (by omega), parseUint_ok _ 64 (by decide) h0,
        parseUint_ok _ 64 (by decide) h3, e]
  · obtain ⟨v, k, e⟩ := parseUint_err _ 64 h3
    rw [e]
    simp only
    unfold MetricItemFromFatString
    rw [if_neg hl]
    simp only [metricPartSeparator]
    rw [if_neg (by omega), parseUint_ok _ 64 (by decide) h0, e]

/-- Claim C6, as the code has it: for a line of at least 8 fields whose timestamp field
is valid and whose `passQps` field (index 3) is not a valid unsigned 64-bit decimal,
`MetricItemFromFatString` returns no record and the `*strconv.NumError` of
`strconv.ParseUint`, which holds the function name `ParseUint` and the text of the
field, not its position or name: a line with the same bad text in the `blockQps`
field (index 4), after a valid `passQps` field, gets the very same outcome. -/
theorem bad_passQps_error (line : GoString)
    (hlen : 8 ≤ (strings.Split line '|').length)
    (h0 : IsUintDecimal 64 (idx (strings.Split line '|') 0))
    (h3 : ¬ IsUintDecimal 64 (idx (strings.Split line '|') 3)) :
    (∃ k, MetricItemFromFatString line =
      (none, some (GoError.NumError "ParseUint" (idx (strings.Split line '|') 3) k))) ∧
    (∀ line2 : GoString, 8 ≤ (strings.Split line2 '|').length →
      IsUintDecimal 64 (idx (strings.Split line2 '|') 0) →
      IsUintDecimal 64 (idx (strings.Split line2 '|') 3) →
      idx (strings.Split line2 '|') 4 = idx (strings.Split line '|') 3 →
      MetricItemFromFatString line2 = MetricItemFromFatString line) := by
  obtain ⟨v, k, e⟩ := parseUint_err _ 64 h3
  have h1 : MetricItemFromFatString line =
      (none, some (GoError.NumError "ParseUint" (idx (strings.Split line '|') 3) k)) := by
    rw [decode_mandatory_err line hlen h0, e]
  refine ⟨⟨k, h1⟩, ?_⟩
  intro line2 hlen2 h20 h23 h24
  rw [h1, decode_mandatory_err line2 hlen2 h20, parseUint_ok _ 64 (by decide) h23, h24, e]

theorem bad_passQps_error_witness :
    8 ≤ (strings.Split "1|t|r|x|2|3|4|5".toList '|').length ∧
    MetricItemFromFatString "1|t|r|x|2|3|4|5".toList
      = (none, some (GoError.NumError "ParseUint" "x".toList StrconvErr.ErrSyntax)) ∧
    ∃ k, MetricItemFromFatString "1|t|r|x|2|3|4|5".toList =
      (none, some (GoError.NumError "ParseUint"
        (idx (strings.Split "1|t|r|x|2|3|4|5".toList '|') 3) k)) :=
  ⟨by decide, by decide,
   (bad_passQps_error "1|t|r|x|2|3|4|5".toList (by decide) (by decide) (by decide)).1⟩

/-- Claim C6 fails as stated: the text `x` in the `passQps` field and the same text in the
`blockQps` field give one and the same error, which names neither field. -/
theorem same_error_for_passQps_and_blockQps :
    MetricItemFromFatString "1|t|r|x|2|3|4|5".toList
      = (none, some (GoError.NumError "ParseUint" "x".toList StrconvErr.ErrSyntax)) ∧
    MetricItemFromFatString "1|t|r|2|x|3|4|5".toList
      = (none, some (GoError.NumError "ParseUint" "x".toList StrconvErr.ErrSyntax)) ∧
    MetricItemFromFatString "1|t|r|x|2|3|4|5".toList
      = MetricItemFromFatString "1|t|r|2|x|3|4|5".toList := by
  decide

/-- Claim C7, the minimum length: a non-empty line that splits on `|` into 7 or fewer
fields is rejected with the error `invalid metric line: invalid format`, whatever its
fields hold; the empty string is rejected with the error
`invalid metric line: empty string`; the two errors differ. -/
theorem short_line_rejected (line : GoString) :
    (line ≠ [] → (strings.Split line '|').length ≤ 7 →
      MetricItemFromFatString line
        = (none, some (GoError.errorString "invalid metric line: invalid format"))) ∧
    MetricItemFromFatString []
      = (none, some (GoError.errorString "invalid metric line: empty string")) ∧
    GoError.errorString "invalid metric line: invalid format"
      ≠ GoError.errorString "invalid metric line: empty string" := by
  refine ⟨?_, rfl, by decide⟩
  intro hne hlen
  have hl : ¬ line.length = 0 := fun e => hne (List.length_eq_zero.1 e)
  unfold MetricItemFromFatString
  rw [if_neg hl]
  simp only [metricPartSeparator]
  rw [if_pos (by omega)]

theorem short_line_rejected_witness :
    "1|t|r|10|2|8|0".toList ≠ [] ∧ (strings.Split "1|t|r|10|2|8|0".toList '|').length ≤ 7 ∧
    MetricItemFromFatString "1|t|r|10|2|8|0".toList
      = (none, some (GoError.errorString "invalid metric line: invalid format")) :=
  ⟨by decide, by decide,
   (short_line_rejected "1|t|r|10|2|8|0".toList).1 (by decide) (by decide)⟩

theorem sep_not_mem_of_isBlank (line : GoString) (h : util.IsBlank line = true) :
    '|' ∉ line := by
  have ht : strings.TrimSpace line = [] := by
    simpa [util.IsBlank] using h
  unfold strings.TrimSpace at ht
  rw [List.reverse_eq_nil_iff, List.dropWhile_eq_nil_iff] at ht
  have hd : List.dropWhile strings.isSpace line = [] := by
    cases hdw : List.dropWhile strings.isSpace line with
    | nil => rfl
    | cons c cs =>
      exfalso
      have hc : strings.isSpace c = true := ht c (by rw [hdw]; simp)
      have hn := List.head_dropWhile_not strings.isSpace line (by rw [hdw]; simp)
      simp only [hdw, List.head_cons] at hn
      rw [hc] at hn
      exact absurd hn (by decide)
  rw [List.dropWhile_eq_nil_iff] at hd
  intro hm
  have := hd _ hm
  revert this
  decide

/-- Claim C8, as the code has it: a line that is empty or holds white space only is
rejected without a record; the empty line with the error
`invalid metric line: empty string`, a non-empty line of white space with the error
`invalid metric line: invalid format` (the check is `len(line) == 0`, not
`util.IsBlank`). -/
theorem blank_line_rejected (line : GoString) (h : util.IsBlank line = true) :
    MetricItemFromFatString line =
      (none, some (GoError.errorString
        (if line = [] then "invalid metric line: empty string"
         else "invalid metric line: invalid format"))) := by
  by_cases hne : line = []
  · subst hne; rfl
  · rw [if_neg hne]
    have hl : ¬ line.length = 0 := fun e => hne (List.length_eq_zero.1 e)
    unfold MetricItemFromFatString
    rw [if_neg hl]
    simp only [metricPartSeparator]
    rw [split_of_not_mem _ _ (sep_not_mem_of_isBlank line h), if_pos (by simp)]

theorem blank_line_rejected_witness :
    util.IsBlank " \t ".toList = true ∧
    MetricItemFromFatString " \t ".toList
      = (none, some (GoError.errorString "invalid metric line: invalid format")) :=
  ⟨by decide, blank_line_rejected " \t ".toList (by decide)⟩

/-- Claim C8 fails as stated: the line of three blanks is blank for `util.IsBlank`, and
it is rejected with the error `invalid metric line: invalid format`, which is not the
error of the empty string. -/
theorem blank_line_not_empty_error :
    util.IsBlank "   ".toList = true ∧
    MetricItemFromFatString "   ".toList
      = (none, some (GoError.errorString "invalid metric line: invalid format")) ∧
    MetricItemFromFatString "".toList
      = (none, some (GoError.errorString "invalid metric line: empty string")) ∧
    MetricItemFromFatString "   ".toList ≠ MetricItemFromFatString "".toList := by
  decide

/-- Claim C9, backward compatibility: a line that splits on `|` into exactly 8 fields,
the fields 0, 3, 4, 5, 6, 7 being valid unsigned 64-bit decimals, is decoded without
error into the record whose `Timestamp`, `Resource`, `PassQps`, `BlockQps`,
`CompleteQps`, `ErrorQps`, `AvgRt` are taken from the fields 0, 2, 3, 4, 5, 6, 7 and
whose `OccupiedPassQps`, `Concurrency` and `Classification` are zero. -/
theorem backward_compatible (line : GoString)
    (hlen : (strings.Split line '|').length = 8)
    (h0 : IsUintDecimal 64 (idx (strings.Split line '|') 0))
    (h3 : IsUintDecimal 64 (idx (strings.Split line '|') 3))
    (h4 : IsUintDecimal 64 (idx (strings.Split line '|') 4))
    (h5 : IsUintDecimal 64 (idx (strings.Split line '|') 5))
    (h6 : IsUintDecimal 64 (idx (strings.Split line '|') 6))
    (h7 : IsUintDecimal 64 (idx (strings.Split line '|') 7)) :
    MetricItemFromFatString line =
      (some { Timestamp := decimalValue (idx (strings.Split line '|') 0)
              Resource := idx (strings.Split line '|') 2
              PassQps := decimalValue (idx (strings.Split line '|') 3)
              BlockQps := decimalValue (idx (strings.Split line '|') 4)
              CompleteQps := decimalValue (idx (strings.Split line '|') 5)
              ErrorQps := decimalValue (idx (strings.Split line '|') 6)
              AvgRt := decimalValue (idx (strings.Split line '|') 7)
              OccupiedPassQps := 0
              Concurrency := 0
              Classification := 0 }, none) := by
  have hne : line ≠ [] := by
    intro e; subst e; revert hlen; decide
  rw [decode_ok line hne (by omega)
    ⟨h0, h3, h4, h5, h6, h7, fun h => absurd h (by omega), fun h => absurd h (by omega),
      fun h => absurd h (by omega)⟩]
  simp [fieldsRecord, hlen]

theorem backward_compatible_witness :
    (strings.Split "1600000000000|2020-09-13 12:26:40|svc-a|10|2|8|0|15".toList '|').length = 8 ∧
    MetricItemFromFatString "1600000000000|2020-09-13 12:26:40|svc-a|10|2|8|0|15".toList =
      (some { Timestamp := 1600000000000, Resource := "svc-a".toList, PassQps := 10,
              BlockQps := 2, CompleteQps := 8, ErrorQps := 0, AvgRt := 15,
              OccupiedPassQps := 0, Concurrency := 0, Classification := 0 }, none) :=
  ⟨by decide,
   backward_compatible "1600000000000|2020-09-13 12:26:40|svc-a|10|2|8|0|15".toList
     (by decide) (by decide) (by decide) (by decide) (by decide) (by decide) (by decide)⟩

/-- Claim C10, forward tolerance: a line of exactly 11 fields whose mandatory numeric
fields are valid and whose fields 8, 9, 10 are the decimal texts of an unsigned 64-bit
value `o`, an unsigned 32-bit value `c` and a signed 32-bit value `k` (negative or not,
the extreme values included) is decoded without error, with `OccupiedPassQps = o`,
`Concurrency = c` and `Classification = k`. -/
theorem forward_tolerant (line : GoString) (o c : Nat) (k : Int)
    (hlen : (strings.Split line '|').length = 11)
    (h0 : IsUintDecimal 64 (idx (strings.Split line '|') 0))
    (h3 : IsUintDecimal 64 (idx (strings.Split line '|') 3))
    (h4 : IsUintDecimal 64 (idx (strings.Split line '|') 4))
    (h5 : IsUintDecimal 64 (idx (strings.Split line '|') 5))
    (h6 : IsUintDecimal 64 (idx (strings.Split line '|') 6))
    (h7 : IsUintDecimal 64 (idx (strings.Split line '|') 7))
    (ho : o < 2 ^ 64) (hc : c < 2 ^ 32) (hk1 : -(2 : Int) ^ 31 ≤ k) (hk2 : k < 2 ^ 31)
    (h8 : idx (strings.Split line '|') 8 = fmt.fmtUint o)
    (h9 : idx (strings.Split line '|') 9 = fmt.fmtUint c)
    (h10 : idx (strings.Split line '|') 10 = fmt.fmtInt k) :
    MetricItemFromFatString line =
      (some { Timestamp := decimalValue (idx (strings.Split line '|') 0)
              Resource := idx (strings.Split line '|') 2
              PassQps := decimalValue (idx (strings.Split line '|') 3)
              BlockQps := decimalValue (idx (strings.Split line '|') 4)
              CompleteQps := decimalValue (idx (strings.Split line '|') 5)
              ErrorQps := decimalValue (idx (strings.Split line '|') 6)
              AvgRt := decimalValue (idx (strings.Split line '|') 7)
              OccupiedPassQps := o
              Concurrency := c
              Classification := k }, none) := by
  have hne : line ≠ [] := by
    intro e; subst e; revert hlen; decide
  rw [decode_ok line hne (by omega)
    ⟨h0, h3, h4, h5, h6, h7, fun _ => by rw [h8]; exact isUintDecimal_fmtUint 64 o ho,
      fun _ => by rw [h9]; exact isUintDecimal_fmtUint 32 c hc,
      fun _ => by rw [h10]; exact isIntDecimal_fmtInt k hk1 hk2⟩]
  simp [fieldsRecord, hlen, h8, h9, h10, decimalValue_fmtUint, signedValue_fmtInt]

theorem forward_tolerant_witness :
    (strings.Split
      "1|t|r|10|2|8|0|15|18446744073709551615|4294967295|-2147483648".toList '|').length = 11 ∧
    MetricItemFromFatString
      "1|t|r|10|2|8|0|15|18446744073709551615|4294967295|-2147483648".toList =
      (some { Timestamp := 1, Resource := "r".toList, PassQps := 10,
              BlockQps := 2, CompleteQps := 8, ErrorQps := 0, AvgRt := 15,
              OccupiedPassQps := 18446744073709551615, Concurrency := 4294967295,
              Classification := -2147483648 }, none) :=
  ⟨by decide,
   forward_tolerant "1|t|r|10|2|8|0|15|18446744073709551615|4294967295|-2147483648".toList
     18446744073709551615 4294967295 (-2147483648)
     (by decide) (by decide) (by decide) (by decide) (by decide) (by decide) (by decide)
     (by decide) (by decide) (by decide) (by decide) (by decide) (by decide) (by decide)⟩

/-! ## Lines made of fields -/

theorem split_joinFields (fs : List GoString) (hne : fs ≠ [])
    (h : ∀ f ∈ fs, '|' ∉ f) : strings.Split (joinFields fs) '|' = fs := by
  induction fs with
  | nil => exact absurd rfl hne
  | cons f gs ih =>
    cases gs with
    | nil => exact split_of_not_mem f '|' (h f (by simp))
    | cons g hs =>
      have e : joinFields (f :: g :: hs) = f ++ '|' :: joinFields (g :: hs) := rfl
      rw [e, split_append _ _ _ (h f (by simp)),
        ih (by simp) (fun x hx => h x (List.mem_cons_of_mem _ hx))]

theorem joinFields_ne_nil (fs : List GoString) (h : 2 ≤ fs.length) : joinFields fs ≠ [] := by
  match fs, h with
  | f :: g :: hs, _ =>
    have e : joinFields (f :: g :: hs) = f ++ '|' :: joinFields (g :: hs) := rfl
    rw [e]
    simp

theorem split_eq_singleton_nil (line : GoString) (h : strings.Split line '|' = [[]]) :
    line = [] := by
  cases line with
  | nil => rfl
  | cons c cs =>
    exfalso
    unfold strings.Split at h
    split at h
    · have := split_ne_nil cs '|'
      simp at h
      exact this h
    · cases hs : strings.Split cs '|' with
      | nil => exact split_ne_nil cs '|' hs
      | cons g gs => rw [hs] at h; simp [strings.consHead] at h

theorem idx_take (arr : List GoString) (n i : Nat) (h : i < n) :
    idx (arr.take n) i = idx arr i := by
  unfold idx
  induction arr generalizing n i with
  | nil => simp
  | cons a as ih =>
    cases n with
    | zero => omega
    | succ n =>
      cases i with
      | zero => simp
      | succ i => simpa using ih n i (by omega)

theorem idx_mem (arr : List GoString) (i : Nat) (h : i < arr.length) : idx arr i ∈ arr := by
  unfold idx
  rw [List.getD_eq_getElem _ _ h]
  exact List.getElem_mem h

/-! ## The decoder looks at the field count and at the fields 0 and 2 to 10 only -/

theorem classification_congr (a b : List GoString) (item : MetricItem)
    (h11 : 11 ≤ a.length ↔ 11 ≤ b.length) (hi : idx a 10 = idx b 10) :
    fromFatStringClassification a item = fromFatStringClassification b item := by
  unfold fromFatStringClassification
  by_cases h : 11 ≤ a.length
  · rw [if_pos h, if_pos (h11.1 h), hi]
  · rw [if_neg h, if_neg (fun x => h (h11.2 x))]

theorem concurrency_congr (a b : List GoString) (item : MetricItem)
    (h10 : 10 ≤ a.length ↔ 10 ≤ b.length) (h11 : 11 ≤ a.length ↔ 11 ≤ b.length)
    (hi9 : idx a 9 = idx b 9) (hi10 : idx a 10 = idx b 10) :
    fromFatStringConcurrency a item = fromFatStringConcurrency b item := by
  unfold fromFatStringConcurrency
  by_cases h : 10 ≤ a.length
  · rw [if_pos h, if_pos (h10.1 h), hi9]
    simp only [classification_congr a b _ h11 hi10]
  · rw [if_neg h, if_neg (fun x => h (h10.2 x)), classification_congr a b _ h11 hi10]

theorem occupied_congr (a b : List GoString) (item : MetricItem)
    (h9 : 9 ≤ a.length ↔ 9 ≤ b.length)
    (h10 : 10 ≤ a.length ↔ 10 ≤ b.length) (h11 : 11 ≤ a.length ↔ 11 ≤ b.length)
    (hi8 : idx a 8 = idx b 8) (hi9 : idx a 9 = idx b 9) (hi10 : idx a 10 = idx b 10) :
    fromFatStringOccupied a item = fromFatStringOccupied b item := by
  unfold fromFatStringOccupied
  by_cases h : 9 ≤ a.length
  · rw [if_pos h, if_pos (h9.1 h), hi8]
    simp only [concurrency_congr a b _ h10 h11 hi9 hi10]
  · rw [if_neg h, if_neg (fun x => h (h9.2 x)), concurrency_congr a b _ h10 h11 hi9 hi10]

theorem decode_congr (l1 l2 : GoString) (hne : l1 = [] ↔ l2 = [])
    (h8 : (strings.Split l1 '|').length < 8 ↔ (strings.Split l2 '|').length < 8)
    (h9 : 9 ≤ (strings.Split l1 '|').length ↔ 9 ≤ (strings.Split l2 '|').length)
    (h10 : 10 ≤ (strings.Split l1 '|').length ↔ 10 ≤ (strings.Split l2 '|').length)
    (h11 : 11 ≤ (strings.Split l1 '|').length ↔ 11 ≤ (strings.Split l2 '|').length)
    (hi : ∀ i, i ≠ 1 → i ≤ 10 →
      idx (strings.Split l1 '|') i = idx (strings.Split l2 '|') i) :
    MetricItemFromFatString l1 = MetricItemFromFatString l2 := by
  unfold MetricItemFromFatString
  by_cases he : l1 = []
  · have he2 := hne.1 he
    subst he; subst he2; rfl
  · have he2 : l2 ≠ [] := fun x => he (hne.2 x)
    rw [if_neg (fun e => he (List.length_eq_zero.1 e)),
      if_neg (fun e => he2 (List.length_eq_zero.1 e))]
    simp only [metricPartSeparator]
    by_cases hl : (strings.Split l1 '|').length < 8
    · rw [if_pos hl, if_pos (h8.1 hl)]
    · rw [if_neg hl, if_neg (fun x => hl (h8.2 x))]
      rw [hi 0 (by decide) (by decide), hi 2 (by decide) (by decide),
        hi 3 (by decide) (by decide), hi 4 (by decide) (by decide),
        hi 5 (by decide) (by decide), hi 6 (by decide) (by decide),
        hi 7 (by decide) (by decide)]
      simp only [occupied_congr _ _ _ h9 h10 h11 (hi 8 (by decide) (by decide))
        (hi 9 (by decide) (by decide)) (hi 10 (by decide) (by decide))]

theorem decode_some_iff (line : GoString) (item : MetricItem)
    (h : MetricItemFromFatString line = (some item, none)) :
    line ≠ [] ∧ 8 ≤ (strings.Split line '|').length ∧
    ValidFields (strings.Split line '|') ∧ item = fieldsRecord (strings.Split line '|') := by
  have hv : line ≠ [] ∧ 8 ≤ (strings.Split line '|').length ∧
      ValidFields (strings.Split line '|') := by
    by_contra hc
    obtain ⟨e, he⟩ := decode_err line hc
    rw [he] at h
    cases h
  refine ⟨hv.1, hv.2.1, hv.2.2, ?_⟩
  rw [decode_ok line hv.1 hv.2.1 hv.2.2] at h
  cases h
  rfl

/-! ## The claims on the tail fields, the ignored fields and the round trips -/

theorem idx_eraseIdx_one_zero (a : List GoString) : idx (a.eraseIdx 1) 0 = idx a 0 := by
  unfold idx
  match a with
  | [] => rfl
  | [_] => rfl
  | _ :: _ :: _ => rfl

theorem idx_eraseIdx_one_succ (a : List GoString) (i : Nat) :
    idx (a.eraseIdx 1) (i + 1) = idx a (i + 2) := by
  unfold idx
  match a with
  | [] => rfl
  | [_] => rfl
  | _ :: _ :: _ => rfl

theorem idx_eq_of_eraseIdx_one (a b : List GoString) (h : a.eraseIdx 1 = b.eraseIdx 1)
    (i : Nat) (hi : i ≠ 1) : idx a i = idx b i := by
  match i, hi with
  | 0, _ => rw [← idx_eraseIdx_one_zero a, ← idx_eraseIdx_one_zero b, h]
  | j + 2, _ => rw [← idx_eraseIdx_one_succ a, ← idx_eraseIdx_one_succ b, h]

theorem eq_nil_iff_of_split (l1 l2 : GoString)
    (hlen : (strings.Split l1 '|').length = (strings.Split l2 '|').length)
    (h0 : idx (strings.Split l1 '|') 0 = idx (strings.Split l2 '|') 0) (h : l1 = []) :
    l2 = [] := by
  subst h
  apply split_eq_singleton_nil
  have e1 : strings.Split [] '|' = [[]] := rfl
  rw [e1] at hlen h0
  match hs : strings.Split l2 '|', hlen, h0 with
  | [x], _, h0 =>
    have : x = [] := h0.symm
    rw [this]

/-- Claim C11, the 32-bit bounds of the last two fields: a line whose field 9
(`concurrency`) is present and denotes a number above `2^32 - 1`, or whose field 10
(`classification`) is present and denotes a number outside `[-2^31, 2^31 - 1]`, is
rejected without a record; and a record that is returned holds the very numbers the
fields 9 and 10 denote, within the 32-bit bounds, never a wrapped or truncated value. -/
theorem tail_fields_bounded (line : GoString) :
    (10 ≤ (strings.Split line '|').length →
      2 ^ 32 ≤ decimalValue (idx (strings.Split line '|') 9) →
      ∃ e, MetricItemFromFatString line = (none, some e)) ∧
    (11 ≤ (strings.Split line '|').length →
      (signedValue (idx (strings.Split line '|') 10) < -(2 : Int) ^ 31 ∨
        (2 : Int) ^ 31 ≤ signedValue (idx (strings.Split line '|') 10)) →
      ∃ e, MetricItemFromFatString line = (none, some e)) ∧
    (∀ item, MetricItemFromFatString line = (some item, none) →
      (10 ≤ (strings.Split line '|').length →
        item.Concurrency = decimalValue (idx (strings.Split line '|') 9) ∧
        item.Concurrency < 2 ^ 32) ∧
      (11 ≤ (strings.Split line '|').length →
        item.Classification = signedValue (idx (strings.Split line '|') 10) ∧
        -(2 : Int) ^ 31 ≤ item.Classification ∧ item.Classification < 2 ^ 31)) := by
  refine ⟨?_, ?_, ?_⟩
  · intro hl hv
    apply decode_err
    intro hh
    have := (hh.2.2.2.2.2.2.2.2.2.1 hl).2.2
    omega
  · intro hl hv
    apply decode_err
    intro hh
    have h1 := (hh.2.2.2.2.2.2.2.2.2.2 hl).2.2
    have p31 : (32 - 1 : Nat) = 31 := rfl
    rw [p31] at h1
    omega
  · intro item h
    obtain ⟨_, _, hv, rfl⟩ := decode_some_iff line item h
    refine ⟨fun hl => ?_, fun hl => ?_⟩
    · have := (hv.2.2.2.2.2.2.2.1 hl).2.2
      simp only [fieldsRecord, if_pos hl]
      exact ⟨trivial, this⟩
    · have h1 := (hv.2.2.2.2.2.2.2.2 hl).2.2
      have p31 : (32 - 1 : Nat) = 31 := rfl
      rw [p31] at h1
      simp only [fieldsRecord, if_pos hl]
      exact ⟨trivial, h1⟩

theorem tail_fields_bounded_witness :
    (∃ e, MetricItemFromFatString "1|t|r|10|2|8|0|15|1|4294967296|0".toList = (none, some e)) ∧
    (∃ e, MetricItemFromFatString "1|t|r|10|2|8|0|15|1|3|-2147483649".toList
      = (none, some e)) :=
  ⟨(tail_fields_bounded "1|t|r|10|2|8|0|15|1|4294967296|0".toList).1 (by decide) (by decide),
   (tail_fields_bounded "1|t|r|10|2|8|0|15|1|3|-2147483649".toList).2.1 (by decide)
     (by decide)⟩

/-- Claim C12, the formatted time is ignored by the decoder: two lines that split on `|`
into the same number of fields and have the same fields apart from the field at index 1
get the same outcome from `MetricItemFromFatString`, the same record or the same error;
and the `Timestamp` of a decoded record is the number the field 0 denotes. -/
theorem formatted_time_ignored (l1 l2 : GoString)
    (hlen : (strings.Split l1 '|').length = (strings.Split l2 '|').length)
    (hrest : (strings.Split l1 '|').eraseIdx 1 = (strings.Split l2 '|').eraseIdx 1) :
    MetricItemFromFatString l1 = MetricItemFromFatString l2 ∧
    (∀ item, MetricItemFromFatString l1 = (some item, none) →
      item.Timestamp = decimalValue (idx (strings.Split l1 '|') 0)) := by
  have hi := idx_eq_of_eraseIdx_one _ _ hrest
  refine ⟨?_, ?_⟩
  · apply decode_congr
    · exact ⟨eq_nil_iff_of_split l1 l2 hlen (hi 0 (by decide)),
        eq_nil_iff_of_split l2 l1 hlen.symm (hi 0 (by decide)).symm⟩
    · rw [hlen]
    · rw [hlen]
    · rw [hlen]
    · rw [hlen]
    · intro i h1 _
      exact hi i h1
  · intro item h
    obtain ⟨_, _, _, rfl⟩ := decode_some_iff l1 item h
    rfl

theorem formatted_time_ignored_witness :
    MetricItemFromFatString "1600000000000|2020-09-13 12:26:40|svc-a|10|2|8|0|15|1|3|0".toList
      = MetricItemFromFatString "1600000000000||svc-a|10|2|8|0|15|1|3|0".toList :=
  (formatted_time_ignored "1600000000000|2020-09-13 12:26:40|svc-a|10|2|8|0|15|1|3|0".toList
    "1600000000000||svc-a|10|2|8|0|15|1|3|0".toList (by decide) (by decide)).1

/-- Claim C13, the fields after the eleventh are ignored: a line that splits on `|` into
more than 11 fields gets from `MetricItemFromFatString` exactly the outcome, record or
error, of the line made of its first 11 fields. -/
theorem extra_fields_ignored (line : GoString)
    (h : 11 < (strings.Split line '|').length) :
    MetricItemFromFatString line
      = MetricItemFromFatString (joinFields ((strings.Split line '|').take 11)) := by
  have hlt : ((strings.Split line '|').take 11).length = 11 := by
    rw [List.length_take]; omega
  have hs : strings.Split (joinFields ((strings.Split line '|').take 11)) '|'
      = (strings.Split line '|').take 11 := by
    apply split_joinFields
    · intro e; rw [e] at hlt; cases hlt
    · intro f hf
      exact not_mem_of_mem_split line '|' f (List.mem_of_mem_take hf)
  have hne : line ≠ [] := by
    intro e; subst e; revert h; decide
  have hne2 : joinFields ((strings.Split line '|').take 11) ≠ [] :=
    joinFields_ne_nil _ (by omega)
  apply decode_congr
  · exact ⟨fun e => absurd e hne, fun e => absurd e hne2⟩
  · rw [hs, hlt]; omega
  · rw [hs, hlt]; omega
  · rw [hs, hlt]; omega
  · rw [hs, hlt]; omega
  · intro i _ hi
    rw [hs, idx_take _ _ _ (by omega)]

theorem extra_fields_ignored_witness :
    11 < (strings.Split "1|t|r|10|2|8|0|15|1|3|-4|extra|x".toList '|').length ∧
    joinFields ((strings.Split "1|t|r|10|2|8|0|15|1|3|-4|extra|x".toList '|').take 11)
      = "1|t|r|10|2|8|0|15|1|3|-4".toList ∧
    MetricItemFromFatString "1|t|r|10|2|8|0|15|1|3|-4|extra|x".toList
      = MetricItemFromFatString
          (joinFields ((strings.Split "1|t|r|10|2|8|0|15|1|3|-4|extra|x".toList '|').take 11)) :=
  ⟨by decide, by decide,
   extra_fields_ignored "1|t|r|10|2|8|0|15|1|3|-4|extra|x".toList (by decide)⟩

theorem thinFormat_ne_nil (ts : Nat) (finalName : GoString)
    (p b c e rt oc conc : Nat) (cl : Int) :
    thinFormat ts finalName p b c e rt oc conc cl ≠ [] := by
  unfold thinFormat
  intro h
  have := congrArg List.length h
  simp at this

/-- Claim C14, encoding never fails: for every record, whatever its resource name and its
integer fields hold, `ToFatString` and `ToThinString` return a nil error and a non-empty
line; the `Write` of a `strings.Builder` never returns an error, so the branch that
returns the empty string with an error is never taken. -/
theorem encoding_never_fails (F : Nat → GoString) (r : MetricItem) :
    (r.ToFatString F).2 = none ∧ r.ToThinString.2 = none ∧
    (r.ToFatString F).1 ≠ [] ∧ r.ToThinString.1 ≠ [] ∧
    (∀ (b : strings.Builder) (p : GoString), (b.Write p).2.2 = none) := by
  refine ⟨rfl, rfl, ?_, ?_, fun _ _ => rfl⟩
  · rw [toFatString_eq]; exact fatFormat_ne_nil _ _ _ _ _ _ _ _ _ _ _
  · rw [toThinString_eq]; exact thinFormat_ne_nil _ _ _ _ _ _ _ _ _ _

/-- Claim C15, the lossy round trip: for every record whose fields fit their Go types,
also one whose resource name holds `|`, decoding its verbose line succeeds and returns
the record with every `|` of the resource name replaced by `_`; hence a record that
differs only in its resource name, by `|` against `_`, decodes to the same record.
The formatted time is assumed to hold no `|`. -/
theorem lossy_round_trip (F : Nat → GoString) (r : MetricItem) (hr : r.InRange)
    (hF : '|' ∉ F r.Timestamp) :
    MetricItemFromFatString (r.ToFatString F).1 =
      (some { r with Resource := r.Resource.map (fun c => if c = '|' then '_' else c) },
       none) ∧
    (∀ res2 : GoString,
      res2.map (fun c => if c = '|' then '_' else c)
        = r.Resource.map (fun c => if c = '|' then '_' else c) →
      MetricItemFromFatString (({ r with Resource := res2 } : MetricItem).ToFatString F).1
        = MetricItemFromFatString (r.ToFatString F).1) := by
  refine ⟨decode_toFatString F r hr hF, ?_⟩
  intro res2 h
  rw [decode_toFatString F r hr hF, decode_toFatString F { r with Resource := res2 } hr hF]
  simp only [strings.ReplaceAll]
  rw [h]

theorem lossy_round_trip_witness :
    pipeItem.InRange ∧
    MetricItemFromFatString (pipeItem.ToFatString exampleFormatTime).1 =
      (some { pipeItem with Resource := "a_b".toList }, none) ∧
    MetricItemFromFatString
        (({ pipeItem with Resource := "a_b".toList } : MetricItem).ToFatString
          exampleFormatTime).1
      = MetricItemFromFatString (pipeItem.ToFatString exampleFormatTime).1 :=
  ⟨by decide,
   (lossy_round_trip exampleFormatTime pipeItem (by decide) (by decide)).1,
   (lossy_round_trip exampleFormatTime pipeItem (by decide) (by decide)).2 "a_b".toList
     (by decide)⟩

theorem inRange_fieldsRecord (arr : List GoString) (hv : ValidFields arr) :
    (fieldsRecord arr).InRange := by
  obtain ⟨h0, h3, h4, h5, h6, h7, h8, h9, h10⟩ := hv
  have p31 : (32 - 1 : Nat) = 31 := rfl
  unfold MetricItem.InRange fieldsRecord
  simp only
  refine ⟨?_, ?_, h0.2.2, h3.2.2, h4.2.2, h5.2.2, h6.2.2, h7.2.2, ?_, ?_⟩
  · by_cases hl : 11 ≤ arr.length
    · rw [if_pos hl]; have := (h10 hl).2.2.1; rw [p31] at this; exact this
    · rw [if_neg hl]; decide
  · by_cases hl : 11 ≤ arr.length
    · rw [if_pos hl]; have := (h10 hl).2.2.2; rw [p31] at this; exact this
    · rw [if_neg hl]; decide
  · by_cases hl : 9 ≤ arr.length
    · rw [if_pos hl]; exact (h8 hl).2.2
    · rw [if_neg hl]; decide
  · by_cases hl : 10 ≤ arr.length
    · rw [if_pos hl]; exact (h9 hl).2.2
    · rw [if_neg hl]; decide

/-- Claim C16, schema-prefix compatibility: when a line is decoded into a record `r`
and `8 ≤ k ≤` the number of its fields, the line made of its first `k` fields is decoded
as well, into the record that agrees with `r` on `Timestamp`, `Resource`, `PassQps`,
`BlockQps`, `CompleteQps`, `ErrorQps`, `AvgRt` and on each of `OccupiedPassQps`
(position 8), `Concurrency` (position 9), `Classification` (position 10) whose
position is below `k`, and holds zero in those whose position is `k` or above. -/
theorem schema_prefix_compatible (line : GoString) (r : MetricItem) (k : Nat)
    (h : MetricItemFromFatString line = (some r, none))
    (h8 : 8 ≤ k) (hk : k ≤ (strings.Split line '|').length) :
    MetricItemFromFatString (joinFields ((strings.Split line '|').take k)) =
      (some { r with
                OccupiedPassQps := if 8 < k then r.OccupiedPassQps else 0
                Concurrency := if 9 < k then r.Concurrency else 0
                Classification := if 10 < k then r.Classification else 0 }, none) := by
  obtain ⟨_, _, hv, rfl⟩ := decode_some_iff line r h
  obtain ⟨h0, h3, h4, h5, h6, h7, h9, h10, h11⟩ := hv
  have hlt : ((strings.Split line '|').take k).length = k := by
    rw [List.length_take]; omega
  have hs : strings.Split (joinFields ((strings.Split line '|').take k)) '|'
      = (strings.Split line '|').take k := by
    apply split_joinFields
    · intro e; rw [e] at hlt; simp at hlt; omega
    · intro f hf
      exact not_mem_of_mem_split line '|' f (List.mem_of_mem_take hf)
  have hne : joinFields ((strings.Split line '|').take k) ≠ [] :=
    joinFields_ne_nil _ (by omega)
  have hv2 : ValidFields ((strings.Split line '|').take k) := by
    refine ⟨?_, ?_, ?_, ?_, ?_, ?_, ?_, ?_, ?_⟩
    · rw [idx_take _ _ _ (by omega)]; exact h0
    · rw [idx_take _ _ _ (by omega)]; exact h3
    · rw [idx_take _ _ _ (by omega)]; exact h4
    · rw [idx_take _ _ _ (by omega)]; exact h5
    · rw [idx_take _ _ _ (by omega)]; exact h6
    · rw [idx_take _ _ _ (by omega)]; exact h7
    · intro hl; rw [hlt] at hl; rw [idx_take _ _ _ (by omega)]; exact h9 (by omega)
    · intro hl; rw [hlt] at hl; rw [idx_take _ _ _ (by omega)]; exact h10 (by omega)
    · intro hl; rw [hlt] at hl; rw [idx_take _ _ _ (by omega)]; exact h11 (by omega)
  rw [decode_ok _ hne (by rw [hs, hlt]; exact h8) (by rw [hs]; exact hv2), hs]
  unfold fieldsRecord
  rw [hlt, idx_take _ _ _ (show 0 < k by omega), idx_take _ _ _ (show 2 < k by omega),
    idx_take _ _ _ (show 3 < k by omega), idx_take _ _ _ (show 4 < k by omega),
    idx_take _ _ _ (show 5 < k by omega), idx_take _ _ _ (show 6 < k by omega),
    idx_take _ _ _ (show 7 < k by omega)]
  simp only
  rw [Prod.mk.injEq, Option.some.injEq, MetricItem.mk.injEq]
  refine ⟨⟨rfl, ?_, rfl, rfl, rfl, rfl, rfl, rfl, ?_, ?_⟩, rfl⟩
  · by_cases c : 11 ≤ k
    · rw [if_pos c, if_pos (by omega), if_pos (by omega), idx_take _ _ _ (by omega)]
    · rw [if_neg c, if_neg (by omega)]
  · by_cases c : 9 ≤ k
    · rw [if_pos c, if_pos (by omega), if_pos (by omega), idx_take _ _ _ (by omega)]
    · rw [if_neg c, if_neg (by omega)]
  · by_cases c : 10 ≤ k
    · rw [if_pos c, if_pos (by omega), if_pos (by omega), idx_take _ _ _ (by omega)]
    · rw [if_neg c, if_neg (by omega)]

theorem schema_prefix_compatible_witness :
    MetricItemFromFatString "1|t|r|10|2|8|0|15|1|3|-4".toList =
      (some { Timestamp := 1, Resource := "r".toList, PassQps := 10, BlockQps := 2,
              CompleteQps := 8, ErrorQps := 0, AvgRt := 15, OccupiedPassQps := 1,
              Concurrency := 3, Classification := -4 }, none) ∧
    joinFields ((strings.Split "1|t|r|10|2|8|0|15|1|3|-4".toList '|').take 9)
      = "1|t|r|10|2|8|0|15|1".toList ∧
    MetricItemFromFatString
        (joinFields ((strings.Split "1|t|r|10|2|8|0|15|1|3|-4".toList '|').take 9)) =
      (some { Timestamp := 1, Resource := "r".toList, PassQps := 10, BlockQps := 2,
              CompleteQps := 8, ErrorQps := 0, AvgRt := 15, OccupiedPassQps := 1,
              Concurrency := 0, Classification := 0 }, none) :=
  ⟨by decide, by decide,
   schema_prefix_compatible "1|t|r|10|2|8|0|15|1|3|-4".toList
     { Timestamp := 1, Resource := "r".toList, PassQps := 10, BlockQps := 2,
       CompleteQps := 8, ErrorQps := 0, AvgRt := 15, OccupiedPassQps := 1,
       Concurrency := 3, Classification := -4 } 9 (by decide) (by decide) (by decide)⟩

/-- Claim C17, decoding normalises: a record `r` that `MetricItemFromFatString` returns
for a line has no `|` in its resource name and fields that fit their Go types, so
encoding it and decoding again gives `r` back: `MetricItemFromFatString` on the line of
`r.ToFatString()` returns `r` and a nil error, whatever the spelling of the first line
(leading zeros, a `+` before the classification, another field 1, fewer than 11 fields
or extra fields). The formatted time is assumed to hold no `|`. -/
theorem decode_normalises (F : Nat → GoString) (line : GoString) (r : MetricItem)
    (h : MetricItemFromFatString line = (some r, none)) (hF : '|' ∉ F r.Timestamp) :
    '|' ∉ r.Resource ∧ r.InRange ∧
    MetricItemFromFatString (r.ToFatString F).1 = (some r, none) := by
  obtain ⟨_, hlen, hv, rfl⟩ := decode_some_iff line r h
  have hres : '|' ∉ (fieldsRecord (strings.Split line '|')).Resource :=
    not_mem_of_mem_split line '|' _ (idx_mem _ 2 (by omega))
  have hin := inRange_fieldsRecord _ hv
  refine ⟨hres, hin, ?_⟩
  rw [decode_toFatString F _ hin hF, replaceAll_of_not_mem _ _ _ hres]

theorem decode_normalises_witness :
    MetricItemFromFatString "007|x|r|01|2|3|4|5|6|7|+8|extra".toList =
      (some { Timestamp := 7, Resource := "r".toList, PassQps := 1, BlockQps := 2,
              CompleteQps := 3, ErrorQps := 4, AvgRt := 5, OccupiedPassQps := 6,
              Concurrency := 7, Classification := 8 }, none) ∧
    (({ Timestamp := 7, Resource := "r".toList, PassQps := 1, BlockQps := 2,
        CompleteQps := 3, ErrorQps := 4, AvgRt := 5, OccupiedPassQps := 6,
        Concurrency := 7, Classification := 8 } : MetricItem).ToFatString
          exampleFormatTime).1 = "7|2020-09-13 12:26:40|r|1|2|3|4|5|6|7|8".toList ∧
    MetricItemFromFatString
      (({ Timestamp := 7, Resource := "r".toList, PassQps := 1, BlockQps := 2,
          CompleteQps := 3, ErrorQps := 4, AvgRt := 5, OccupiedPassQps := 6,
          Concurrency := 7, Classification := 8 } : MetricItem).ToFatString
            exampleFormatTime).1 =
      (some { Timestamp := 7, Resource := "r".toList, PassQps := 1, BlockQps := 2,
              CompleteQps := 3, ErrorQps := 4, AvgRt := 5, OccupiedPassQps := 6,
              Concurrency := 7, Classification := 8 }, none) :=
  ⟨by decide, by decide,
   (decode_normalises exampleFormatTime "007|x|r|01|2|3|4|5|6|7|+8|extra".toList
     { Timestamp := 7, Resource := "r".toList, PassQps := 1, BlockQps := 2,
       CompleteQps := 3, ErrorQps := 4, AvgRt := 5, OccupiedPassQps := 6,
       Concurrency := 7, Classification := 8 } (by decide) (by decide)).2.2⟩

theorem parseUint_fmtInt_neg (k : Int) (bits : Nat) (hk : k < 0) :
    strconv.ParseUint (fmt.fmtInt k) bits
      = (0, some (GoError.NumError "ParseUint" (fmt.fmtInt k) StrconvErr.ErrSyntax)) := by
  have e : fmt.fmtInt k = '-' :: fmt.fmtUint (-k).toNat := by
    unfold fmt.fmtInt; rw [if_pos hk]
  rw [e]
  rfl

theorem fmtInt_nonneg (k : Int) (hk : 0 ≤ k) : fmt.fmtInt k = fmt.fmtUint k.toNat := by
  unfold fmt.fmtInt; rw [if_neg (by omega)]

/-- Claim C18, the verbose decoder misreads a compact line: for a record `r` whose fields
fit their Go types, `MetricItemFromFatString` on the line of `r.ToThinString()` does not
fail when `Classification ≥ 0` but returns the shifted record, with
`Timestamp = r.Timestamp`, `Resource` the decimal text of `r.PassQps`,
`PassQps = r.BlockQps`, `BlockQps = r.CompleteQps`, `CompleteQps = r.ErrorQps`,
`ErrorQps = r.AvgRt`, `AvgRt = r.OccupiedPassQps`, `OccupiedPassQps = r.Concurrency`,
`Concurrency = r.Classification` and `Classification = 0`; when `Classification < 0` it
fails with the syntax error of `strconv.ParseUint` on the text of the classification. -/
theorem thin_line_misread (r : MetricItem) (hr : r.InRange) :
    (0 ≤ r.Classification →
      MetricItemFromFatString r.ToThinString.1 =
        (some { Timestamp := r.Timestamp
                Resource := fmt.fmtUint r.PassQps
                PassQps := r.BlockQps
                BlockQps := r.CompleteQps
                CompleteQps := r.ErrorQps
                ErrorQps := r.AvgRt
                AvgRt := r.OccupiedPassQps
                OccupiedPassQps := r.Concurrency
                Concurrency := r.Classification.toNat
                Classification := 0 }, none)) ∧
    (r.Classification < 0 →
      MetricItemFromFatString r.ToThinString.1 =
        (none, some (GoError.NumError "ParseUint" (fmt.fmtInt r.Classification)
          StrconvErr.ErrSyntax))) := by
  obtain ⟨c1, c2, hts, hp, hb, hc, he, hrt, hoc, hcc⟩ := hr
  have hs := split_toThinString r
  have hne : r.ToThinString.1 ≠ [] := by
    rw [toThinString_eq]; exact thinFormat_ne_nil _ _ _ _ _ _ _ _ _ _
  have hcc64 : r.Concurrency < 2 ^ 64 := by omega
  refine ⟨?_, ?_⟩
  · intro hk
    have hk32 : r.Classification.toNat < 2 ^ 32 := by omega
    have hv : ValidFields (thinFields r) := by
      refine ⟨?_, ?_, ?_, ?_, ?_, ?_, ?_, ?_, ?_⟩
      · exact isUintDecimal_fmtUint 64 _ hts
      · exact isUintDecimal_fmtUint 64 _ hb
      · exact isUintDecimal_fmtUint 64 _ hc
      · exact isUintDecimal_fmtUint 64 _ he
      · exact isUintDecimal_fmtUint 64 _ hrt
      · exact isUintDecimal_fmtUint 64 _ hoc
      · intro _; exact isUintDecimal_fmtUint 64 _ hcc64
      · intro _
        show IsUintDecimal 32 (fmt.fmtInt r.Classification)
        rw [fmtInt_nonneg _ hk]
        exact isUintDecimal_fmtUint 32 _ hk32
      · intro hl; simp [thinFields] at hl
    rw [decode_ok _ hne (by rw [hs]; simp [thinFields]) (by rw [hs]; exact hv), hs]
    simp [fieldsRecord, thinFields, idx, decimalValue_fmtUint, fmtInt_nonneg _ hk]
  · intro hk
    have hl : ¬ r.ToThinString.1.length = 0 := fun e => hne (List.length_eq_zero.1 e)
    unfold MetricItemFromFatString
    rw [if_neg hl]
    simp only [metricPartSeparator, hs]
    have i0 : idx (thinFields r) 0 = fmt.fmtUint r.Timestamp := rfl
    have i3 : idx (thinFields r) 3 = fmt.fmtUint r.BlockQps := rfl
    have i4 : idx (thinFields r) 4 = fmt.fmtUint r.CompleteQps := rfl
    have i5 : idx (thinFields r) 5 = fmt.fmtUint r.ErrorQps := rfl
    have i6 : idx (thinFields r) 6 = fmt.fmtUint r.AvgRt := rfl
    have i7 : idx (thinFields r) 7 = fmt.fmtUint r.OccupiedPassQps := rfl
    have i8 : idx (thinFields r) 8 = fmt.fmtUint r.Concurrency := rfl
    have i9 : idx (thinFields r) 9 = fmt.fmtInt r.Classification := rfl
    have hlen : (thinFields r).length = 10 := rfl
    rw [if_neg (by simp [thinFields]), i0, i3, i4, i5, i6, i7,
      parseUint_fmtUint 64 _ (by decide) hts, parseUint_fmtUint 64 _ (by decide) hb,
      parseUint_fmtUint 64 _ (by decide) hc, parseUint_fmtUint 64 _ (by decide) he,
      parseUint_fmtUint 64 _ (by decide) hrt, parseUint_fmtUint 64 _ (by decide) hoc]
    simp only
    unfold fromFatStringOccupied
    rw [if_pos (by simp [thinFields]), i8, parseUint_fmtUint 64 _ (by decide) hcc64]
    simp only
    unfold fromFatStringConcurrency
    rw [if_pos (by simp [thinFields]), i9, parseUint_fmtInt_neg _ 32 hk]

theorem thin_line_misread_witness :
    exampleItem.InRange ∧
    exampleItem.ToThinString.1 = "1600000000000|svc-a|10|2|8|0|15|1|3|0".toList ∧
    MetricItemFromFatString exampleItem.ToThinString.1 =
      (some { Timestamp := 1600000000000, Resource := "10".toList, PassQps := 2,
              BlockQps := 8, CompleteQps := 0, ErrorQps := 15, AvgRt := 1,
              OccupiedPassQps := 3, Concurrency := 0, Classification := 0 }, none) ∧
    pipeItem.InRange ∧
    MetricItemFromFatString pipeItem.ToThinString.1 =
      (none, some (GoError.NumError "ParseUint" "-2147483648".toList StrconvErr.ErrSyntax)) :=
  ⟨by decide, by decide, (thin_line_misread exampleItem (by decide)).1 (by decide),
   by decide, (thin_line_misread pipeItem (by decide)).2 (by decide)⟩

end Sentinel
